import Mathlib

/-!
# ToneTerminal preset-serialization core: a shallow embedding

This file embeds the multi-target preset serialization subsystem of the
ToneTerminal repository (the exporters under `src/exporters`, the DAW
identity table under `src/lib/daws.ts` / `src/data/daws.ts`) into Lean 4
and proves the specification's claims about it.

Modelling conventions:
* JavaScript strings are modelled as `List Nat` of Unicode code points
  (`Str` below); `String.toLowerCase` is modelled on the ASCII range,
  which covers every character the claims and the static tables use.
* `Record<string, string>` objects are modelled as association lists in
  insertion order, matching `Object.entries` iteration order.
* `Buffer`/byte payloads are modelled structurally (`FileData` below):
  a text payload keeps its string, a gzip payload keeps the compressed
  document, a zip archive keeps its entry list; JSON documents are kept
  as their abstract syntax trees (`Json`).
* `Array.prototype.sort` (guaranteed stable by ECMAScript) is modelled
  by a stable insertion sort `jsSort`.
* Operations that could in principle mutate a caller-visible object are
  given explicit state-passing types: they return the post-call value of
  the object alongside their result, so frame properties are statements
  about the embedding rather than artifacts of purity.
-/

namespace ToneTerminal

/-- A JavaScript string, as its list of Unicode code points. -/
abbrev Str := List Nat

/-- Convert a Lean string literal to the `Str` model. -/
def str (s : String) : Str := s.data.map Char.toNat

/-- ASCII lower-casing of one code point, the fragment of
`String.prototype.toLowerCase` exercised by this code base. -/
def lowerCh (c : Nat) : Nat := if 65 ≤ c ∧ c ≤ 90 then c + 32 else c

/-- Lower-case a string (code-point-wise ASCII lowering). -/
def lowerStr (s : Str) : Str := s.map lowerCh

/-- JavaScript whitespace characters (the ASCII fragment): tab, LF, VT,
FF, CR, space. -/
def isWs (c : Nat) : Bool := c = 9 ∨ c = 10 ∨ c = 11 ∨ c = 12 ∨ c = 13 ∨ c = 32

/-- Worker of `runsTo`: `inRun` records whether the previous character
belonged to a run of `p`-characters (whose single replacement has
already been emitted). -/
def runsToAux (p : Nat → Bool) (r : Nat) : Bool → Str → Str
  | _, [] => []
  | inRun, c :: rest =>
    if p c then (if inRun then [] else [r]) ++ runsToAux p r true rest
    else c :: runsToAux p r false rest

/-- Replace every maximal run of characters satisfying `p` with the single
character `r`: the semantics of a global regex replace of `/[class]+/g`
with a one-character replacement. -/
def runsTo (p : Nat → Bool) (r : Nat) (s : Str) : Str :=
  runsToAux p r false s

/-- Drop every leading and every trailing character satisfying `p`
(the semantics of `replace(/^X+|X+$/g, "")` for a character class `X`,
and of `trim` for whitespace). -/
def trimBy (p : Nat → Bool) (s : Str) : Str :=
  ((s.dropWhile p).reverse.dropWhile p).reverse

/-- `String.prototype.trim` (ASCII fragment). -/
def jsTrim (s : Str) : Str := trimBy isWs s

/-! ## Chain model (`src/exporters/types.ts`) -/

/-- `PluginParameter`: a single named control with a string value. -/
structure PluginParameter where
  id : Str
  label : Option Str := none
  value : Str
  normalized : Option Int := none
  min : Option Int := none
  max : Option Int := none
  step : Option Int := none
  unit : Option Str := none
deriving DecidableEq, Repr

/-- `PluginIdentifierMap`: per-target plugin identifiers, all optional. -/
structure PluginIdentifierMap where
  generic : Option Str := none
  vst3 : Option Str := none
  vst2 : Option Str := none
  au : Option Str := none
  aax : Option Str := none
  clap : Option Str := none
  flStudio : Option Str := none
  ableton : Option Str := none
  logic : Option Str := none
  proTools : Option Str := none
  studioOne : Option Str := none
  reaper : Option Str := none
deriving DecidableEq, Repr

/-- `PluginChainPlugin`: one plugin instance within a chain.  `settings`
is a `Record<string, string>` kept as an association list in insertion
(= `Object.entries` iteration) order. -/
structure PluginChainPlugin where
  name : Str
  type : Str
  settings : List (Str × Str)
  comment : Option Str := none
  vendor : Option Str := none
  category : Option Str := none
  identifiers : Option PluginIdentifierMap := none
  parameters : Option (List PluginParameter) := none
  bypassed : Option Bool := none
  slotIndex : Option Int := none
  tags : Option (List Str) := none
deriving DecidableEq, Repr

/-- Song metadata on a chain. -/
structure SongMeta where
  title : Option Str := none
  artist : Option Str := none
  album : Option Str := none
  timecode : Option Str := none
deriving DecidableEq, Repr

/-- `PluginChain`: the top-level unit handed to a serializer. -/
structure PluginChain where
  daw : Str
  dawId : Option Str := none
  summary : Option Str := none
  plugins : List PluginChainPlugin
  song : Option SongMeta := none
  clipWindow : Option Str := none
deriving DecidableEq, Repr

/-- Structural model of an output payload: text keeps its string, gzip
keeps the document it compresses, zip keeps its entries.  JSON entries
keep the document's abstract syntax tree. -/
inductive Json where
  | jnull : Json
  | jbool : Bool → Json
  | jnum : Int → Json
  | jstr : Str → Json
  | jarr : List Json → Json
  | jobj : List (Str × Json) → Json

/-- Data stored in one zip entry. -/
inductive ZipData where
  | ztext : Str → ZipData
  | zjson : Json → ZipData

/-- Payload of a `SerializedPreset`. -/
inductive FileData where
  | text : Str → FileData
  | gzipped : Str → FileData
  | zipArchive : List (Str × ZipData) → FileData

/-- `SerializedPreset`: the output of one serialize call. -/
structure SerializedPreset where
  filename : Str
  mime : Str
  data : FileData
  serializerId : Str
  label : Str
  isNative : Bool

/-! ## Format utilities (`src/exporters/utils.ts`) -/

/-- The filename-safe character class `[A-Za-z0-9._-]`. -/
def isFileSafe (c : Nat) : Bool :=
  (65 ≤ c ∧ c ≤ 90) ∨ (97 ≤ c ∧ c ≤ 122) ∨ (48 ≤ c ∧ c ≤ 57) ∨
    c = 46 ∨ c = 95 ∨ c = 45

/-- The `safe` value computed by `sanitizeFilename`: replace runs of
characters outside `[A-Za-z0-9._-]` with `_`, collapse runs of `_`,
strip leading and trailing `_`, lower-case. -/
def sanitizeCore (name : Str) : Str :=
  lowerStr (trimBy (fun c => c == 95)
    (runsTo (fun c => c == 95) 95 (runsTo (fun c => ! isFileSafe c) 95 name)))

/-- `sanitizeFilename(name, fallback)`: the `safe` value, or `fallback`
when it is the empty string (`safe || fallback`). -/
def sanitizeFilename (name fallback : Str) : Str :=
  if sanitizeCore name = [] then fallback else sanitizeCore name

/-- `sanitizeFilename` at its default fallback `"tone-terminal"`. -/
def sanitizeFilenameD (name : Str) : Str :=
  sanitizeFilename name (str "tone-terminal")

/-- `encodeUtf8`: a UTF-8 `Buffer` of a string, modelled as the string
itself. -/
def encodeUtf8 (s : Str) : Str := s

/-- `buildZipArchive(entries)`: assemble a zip archive from its entries,
modelled structurally (compression does not change the entry list). -/
def buildZipArchive (entries : List (Str × ZipData)) : FileData :=
  FileData.zipArchive entries

/-- Does a string end with a line feed? -/
def endsWithNl (s : Str) : Bool :=
  match s.getLast? with
  | some 10 => true
  | _ => false

/-- `prettyXml`: trim the document and guarantee a trailing newline. -/
def prettyXml (v : Str) : Str :=
  let t := jsTrim v
  if endsWithNl t then t else t ++ [10]

/-- Stable insertion into a sorted list: the new element goes after
every element `y` with `le y x`. -/
def insertS (le : α → α → Bool) (x : α) : List α → List α
  | [] => [x]
  | y :: ys => if le y x then y :: insertS le x ys else x :: y :: ys

/-- A stable sort (insertion sort), modelling the ECMAScript guarantee
that `Array.prototype.sort` with comparator `(a, b) => f a - f b` sorts
stably by `f`; `le y x` holds when the comparator would keep `y` before
`x`. -/
def jsSort (le : α → α → Bool) (l : List α) : List α :=
  l.foldl (fun acc x => insertS le x acc) []

/-- The decoration step of `sortChainPlugins`: each plugin paired with
its effective order key, `slotIndex` when it is a number, else the
plugin's array index. -/
def keyedPlugins (c : PluginChain) : List (Int × PluginChainPlugin) :=
  c.plugins.enum.map (fun ip => (ip.2.slotIndex.getD (Int.ofNat ip.1), ip.2))

/-- The comparator `(a, b) => a.order - b.order` as a keep-before
relation: `a` may stay before `b` when its order key is not larger. -/
def keyLe (a b : Int × PluginChainPlugin) : Bool := decide (a.1 ≤ b.1)

/-- `sortChainPlugins(chain)`: decorate with the effective order key,
sort stably ascending by it, strip the decoration. -/
def sortChainPlugins (c : PluginChain) : List PluginChainPlugin :=
  (jsSort keyLe (keyedPlugins c)).map Prod.snd

/-! ## Escaping functions -/

/-- One step of `escapeValue` (`src/exporters/flStudioFst.ts`):
`replace(/\r?\n/g, " ")` — every CRLF pair and every lone LF becomes a
single space (a lone CR is not matched by `\r?\n`). -/
def collapseNewlines : Str → Str
  | [] => []
  | 13 :: 10 :: rest => 32 :: collapseNewlines rest
  | 10 :: rest => 32 :: collapseNewlines rest
  | c :: rest => c :: collapseNewlines rest

/-- Second step of `escapeValue`: `replace(/=/g, "-")`. -/
def eqToDash (c : Nat) : Nat := if c = 61 then 45 else c

/-- `escapeValue` of the line-based (FL Studio FST) format. -/
def escapeValue (v : Str) : Str := (collapseNewlines v).map eqToDash

/-- Global replacement of the single character `c` by the string `rep`:
`replace(/c/g, rep)`. -/
def replaceCh (c : Nat) (rep : Str) : Str → Str
  | [] => []
  | d :: rest => (if d = c then rep else [d]) ++ replaceCh c rep rest

/-- `xmlEscape` (defined identically in `proToolsPreset.ts`,
`studioOnePreset.ts` and `abletonAdg.ts`): the five global replaces, in
source order, ampersand first. -/
def xmlEscape (s : Str) : Str :=
  replaceCh 39 (str "&apos;")
    (replaceCh 34 (str "&quot;")
      (replaceCh 62 (str "&gt;")
        (replaceCh 60 (str "&lt;")
          (replaceCh 38 (str "&amp;") s))))

/-! ## Serializer contract -/

/-- `PresetSerializer`: the common serializer contract.  `serialize`
returns, alongside the preset, the post-call value of its chain
argument (explicit state passing for the frame property). -/
structure PresetSerializer where
  id : Str
  label : Str
  canHandle : Str → Bool
  serialize : PluginChain → SerializedPreset × PluginChain

/-- Decimal rendering of a natural number. -/
def natStr (n : Nat) : Str := str (toString n)

/-- Join a list of strings with a separator. -/
def joinWith (sep : Str) (ls : List Str) : Str := List.intercalate sep ls

/-! ## FL Studio FST serializer (`src/exporters/flStudioFst.ts`) -/

/-- Identifier resolution for the FST format:
`identifiers?.flStudio ?? identifiers?.vst3 ?? identifiers?.generic ?? name`. -/
def pluginIdentFl (p : PluginChainPlugin) : Str :=
  ((p.identifiers.bind PluginIdentifierMap.flStudio) <|>
    (p.identifiers.bind PluginIdentifierMap.vst3) <|>
    (p.identifiers.bind PluginIdentifierMap.generic)).getD p.name

/-- `formatParameterLines(plugin)`: one `ParamN=name=value` line per
`settings` entry, or the placeholder `Param0=Default=0` when `settings`
is empty. -/
def formatParameterLines (p : PluginChainPlugin) : List Str :=
  if p.settings = [] then [str "Param0=Default=0"]
  else p.settings.enum.map (fun x =>
    str "Param" ++ natStr x.1 ++ [61] ++ escapeValue x.2.1 ++ [61] ++ escapeValue x.2.2)

/-- The `ParamN` lines of one slot: the `parameters` list when present
and non-empty (label when set, else id), else `formatParameterLines`. -/
def slotParamLines (p : PluginChainPlugin) : List Str :=
  match p.parameters with
  | some ps =>
    if ps ≠ [] then
      ps.enum.map (fun x =>
        str "Param" ++ natStr x.1 ++ [61] ++ escapeValue (x.2.label.getD x.2.id) ++ [61] ++
          escapeValue x.2.value)
    else formatParameterLines p
  | none => formatParameterLines p

/-- The lines of `formatSlot(index, plugin)`, before the final join. -/
def formatSlotLines (i : Nat) (p : PluginChainPlugin) : List Str :=
  ([str "[Slot" ++ natStr i ++ str "]",
    str "Name=" ++ escapeValue (pluginIdentFl p),
    str "DisplayName=" ++ escapeValue p.name,
    str "Type=" ++ escapeValue p.type,
    str "State=" ++ (if p.bypassed.getD false then str "Bypassed" else str "Active")] ++
   (match p.comment with
    | some c => if c = [] then [] else [str "Comment=" ++ escapeValue c]
    | none => []) ++
   slotParamLines p).filter (fun l => l ≠ [])

/-- `formatSlot(index, plugin)`. -/
def formatSlot (i : Nat) (p : PluginChainPlugin) : Str :=
  joinWith [10] (formatSlotLines i p)

/-- An optional `Key=value` header line guarded by JS truthiness
(absent or empty-string values produce no line). -/
def truthyLine (key : Str) (v : Option Str) : Option Str :=
  match v with
  | some s => if s = [] then none else some (key ++ escapeValue s)
  | none => none

/-- The header lines of `buildFst`, after `filter(Boolean)`: note that
the trailing empty-string element of the source array is removed by
that filter along with the `null` placeholders. -/
def fstHeaderLines (c : PluginChain) (slotCount : Nat) : List Str :=
  (([some (str "[ToneTerminalFST]"),
     some (str "Version=1"),
     some (str "CreatedBy=ToneTerminal"),
     some (str "DAW=" ++ escapeValue c.daw),
     truthyLine (str "Song=") (c.song.bind SongMeta.title),
     truthyLine (str "ClipWindow=") c.clipWindow,
     truthyLine (str "Summary=") c.summary,
     some (str "SlotCount=" ++ natStr slotCount),
     some []] : List (Option Str)).filterMap id).filter (fun l => l ≠ [])

/-- `buildFst(chain)`: header then the slot blocks, concatenated. -/
def buildFst (c : PluginChain) : Str :=
  let ordered := sortChainPlugins c
  let header := joinWith [10] (fstHeaderLines c ordered.length)
  let slots := joinWith [10, 10] (ordered.enum.map (fun ip => formatSlot ip.1 ip.2))
  header ++ slots ++ [10]

/-- Filename base of the FST serializer:
`chain.song?.title ?? chain.summary ?? daw.replace(/\s+/g, "_") + "_chain"`. -/
def flSafeBase (c : PluginChain) : Str :=
  ((c.song.bind SongMeta.title) <|> c.summary).getD (runsTo isWs 95 c.daw ++ str "_chain")

/-- `FlStudioFstSerializer`. -/
def FlStudioFstSerializer : PresetSerializer where
  id := str "fl-studio-fst"
  label := str "FL Studio Mixer State"
  canHandle := fun d => d == str "fl_studio" || d == str "flstudio"
  serialize := fun c =>
    ({ filename := sanitizeFilenameD (flSafeBase c) ++ str ".fst"
       mime := str "application/octet-stream"
       data := FileData.text (encodeUtf8 (buildFst c))
       serializerId := str "fl-studio-fst"
       label := str "FL Studio Mixer State"
       isNative := true }, c)

/-! ## Pro Tools XML serializer (`src/exporters/proToolsPreset.ts`) -/

/-- Identifier resolution for Pro Tools:
`identifiers?.proTools ?? identifiers?.aax ?? identifiers?.generic ?? name`. -/
def pluginIdentPt (p : PluginChainPlugin) : Str :=
  ((p.identifiers.bind PluginIdentifierMap.proTools) <|>
    (p.identifiers.bind PluginIdentifierMap.aax) <|>
    (p.identifiers.bind PluginIdentifierMap.generic)).getD p.name

/-- One `<Parameter .../>` element of the Pro Tools format. -/
def ptParamEntry (i : Nat) (nv : Str × Str) : Str :=
  str "<Parameter index=\"" ++ natStr i ++ str "\" name=\"" ++ xmlEscape nv.1 ++
    str "\" value=\"" ++ xmlEscape nv.2 ++ str "\"/>"

/-- The parameter elements emitted by `serializePlugin` (Pro Tools):
one per `settings` entry — the `parameters` list is never consulted. -/
def ptParamEntries (p : PluginChainPlugin) : List Str :=
  p.settings.enum.map (fun x => ptParamEntry x.1 x.2)

/-- `serializePlugin(plugin)` (Pro Tools). -/
def ptSerializePlugin (p : PluginChainPlugin) : Str :=
  str "<PlugIn name=\"" ++ xmlEscape p.name ++ str "\" identifier=\"" ++
    xmlEscape (pluginIdentPt p) ++ str "\" category=\"" ++ xmlEscape p.type ++
    str "\" bypassed=\"" ++ (if p.bypassed.getD false then str "true" else str "false") ++
    str "\">\n    <Notes>" ++
    (match p.comment with
     | some c => if c = [] then [] else xmlEscape c
     | none => []) ++
    str "</Notes>\n    <Parameters>" ++ joinWith [] (ptParamEntries p) ++
    str "</Parameters>\n  </PlugIn>"

/-- The `<Song ... />` element of the Pro Tools meta block. -/
def ptSongElem (s : SongMeta) : Str :=
  str "<Song title=\"" ++ (match s.title with
    | some t => if t = [] then [] else xmlEscape t
    | none => []) ++
  str "\" artist=\"" ++ (match s.artist with
    | some a => if a = [] then [] else xmlEscape a
    | none => []) ++ str "\" />"

/-- `buildPreset(chain)` (Pro Tools): the XML document, pretty-printed. -/
def ptBuildPreset (c : PluginChain) : Str :=
  let plugins := joinWith [] ((sortChainPlugins c).map ptSerializePlugin)
  prettyXml
    (str "<?xml version=\"1.0\" encoding=\"UTF-8\"?>\n<PlugInPreset version=\"1.0\" creator=\"ToneTerminal\">\n  <Meta>\n    <DAW>" ++
     xmlEscape c.daw ++ str "</DAW>\n    " ++
     (match c.summary with
      | some s => if s = [] then [] else str "<Summary>" ++ xmlEscape s ++ str "</Summary>"
      | none => []) ++
     str "\n    " ++
     (match c.clipWindow with
      | some s => if s = [] then [] else str "<ClipWindow>" ++ xmlEscape s ++ str "</ClipWindow>"
      | none => []) ++
     str "\n    " ++
     (match c.song with
      | some s => ptSongElem s
      | none => []) ++
     str "\n  </Meta>\n  <PlugIns>\n    " ++ plugins ++
     str "\n  </PlugIns>\n</PlugInPreset>")

/-- Filename base of the Pro Tools serializer. -/
def ptSafeBase (c : PluginChain) : Str :=
  ((c.song.bind SongMeta.title) <|> c.summary).getD (runsTo isWs 95 c.daw ++ str "_preset")

/-- `ProToolsPresetSerializer`. -/
def ProToolsPresetSerializer : PresetSerializer where
  id := str "pro-tools-xml"
  label := str "Pro Tools XML Preset"
  canHandle := fun d => d == str "pro_tools" || d == str "protools"
  serialize := fun c =>
    ({ filename := sanitizeFilenameD (ptSafeBase c) ++ str ".ptpreset.xml"
       mime := str "application/xml"
       data := FileData.text (ptBuildPreset c)
       serializerId := str "pro-tools-xml"
       label := str "Pro Tools XML Preset"
       isNative := true }, c)

/-! ## Studio One preset serializer (`src/exporters/studioOnePreset.ts`) -/

/-- Identifier resolution for Studio One:
`identifiers?.studioOne ?? identifiers?.vst3 ?? identifiers?.generic ?? name`. -/
def pluginIdentS1 (p : PluginChainPlugin) : Str :=
  ((p.identifiers.bind PluginIdentifierMap.studioOne) <|>
    (p.identifiers.bind PluginIdentifierMap.vst3) <|>
    (p.identifiers.bind PluginIdentifierMap.generic)).getD p.name

/-- The parameter elements emitted by `serializeDevice` (Studio One):
one per `settings` entry — the `parameters` list is never consulted. -/
def s1ParamEntries (p : PluginChainPlugin) : List Str :=
  p.settings.enum.map (fun x => ptParamEntry x.1 x.2)

/-- `serializeDevice(plugin, index)` (Studio One). -/
def s1SerializeDevice (p : PluginChainPlugin) (i : Nat) : Str :=
  str "<Device index=\"" ++ natStr i ++ str "\">\n    <Name>" ++ xmlEscape p.name ++
    str "</Name>\n    <Identifier>" ++ xmlEscape (pluginIdentS1 p) ++
    str "</Identifier>\n    <Type>" ++ xmlEscape p.type ++
    str "</Type>\n    <Bypassed>" ++
    (if p.bypassed.getD false then str "true" else str "false") ++
    str "</Bypassed>\n    <Parameters>" ++ joinWith [] (s1ParamEntries p) ++
    str "</Parameters>\n    <Notes>" ++
    (match p.comment with
     | some c => if c = [] then [] else xmlEscape c
     | none => []) ++
    str "</Notes>\n  </Device>"

/-- The `PresetInfo.xml` member of the Studio One archive. -/
def s1PresetInfo (c : PluginChain) : Str :=
  let devices := joinWith []
    ((sortChainPlugins c).enum.map (fun ip => s1SerializeDevice ip.2 ip.1))
  prettyXml
    (str "<?xml version=\"1.0\" encoding=\"UTF-8\"?>\n<Preset>\n  <Header>\n    <Title>" ++
     xmlEscape (((c.song.bind SongMeta.title) <|> c.summary).getD (str "ToneTerminal Chain")) ++
     str "</Title>\n    <Creator>ToneTerminal</Creator>\n    <Category>" ++
     xmlEscape c.daw ++ str "</Category>\n    " ++
     (match c.clipWindow with
      | some s => if s = [] then [] else str "<Comment>" ++ xmlEscape s ++ str "</Comment>"
      | none => []) ++
     str "\n  </Header>\n  <Devices>" ++ devices ++ str "</Devices>\n</Preset>")

/-- The `UserData/ToneTerminal.xml` member of the Studio One archive. -/
def s1UserData (c : PluginChain) : Str :=
  prettyXml
    (str "<?xml version=\"1.0\" encoding=\"UTF-8\"?>\n<ToneTerminal>\n  <Summary>" ++
     (match c.summary with
      | some s => if s = [] then [] else xmlEscape s
      | none => []) ++
     str "</Summary>\n  <SongTitle>" ++
     (match c.song.bind SongMeta.title with
      | some s => if s = [] then [] else xmlEscape s
      | none => []) ++
     str "</SongTitle>\n  <SongArtist>" ++
     (match c.song.bind SongMeta.artist with
      | some s => if s = [] then [] else xmlEscape s
      | none => []) ++
     str "</SongArtist>\n  <ClipWindow>" ++
     (match c.clipWindow with
      | some s => if s = [] then [] else xmlEscape s
      | none => []) ++
     str "</ClipWindow>\n</ToneTerminal>")

/-- Filename base of the Studio One serializer. -/
def s1SafeBase (c : PluginChain) : Str :=
  ((c.song.bind SongMeta.title) <|> c.summary).getD (runsTo isWs 95 c.daw ++ str "_preset")

/-- `StudioOnePresetSerializer`. -/
def StudioOnePresetSerializer : PresetSerializer where
  id := str "studio-one-preset"
  label := str "Studio One Native Preset"
  canHandle := fun d => d == str "studio_one" || d == str "studioone"
  serialize := fun c =>
    ({ filename := sanitizeFilenameD (s1SafeBase c) ++ str ".preset"
       mime := str "application/zip"
       data := buildZipArchive
         [(str "PresetInfo.xml", ZipData.ztext (encodeUtf8 (s1PresetInfo c))),
          (str "UserData/ToneTerminal.xml", ZipData.ztext (encodeUtf8 (s1UserData c)))]
       serializerId := str "studio-one-preset"
       label := str "Studio One Native Preset"
       isNative := true }, c)

/-! ## Ableton ADG serializer (`src/exporters/abletonAdg.ts`) -/

/-- Identifier resolution for Ableton:
`identifiers?.ableton ?? identifiers?.vst3 ?? identifiers?.generic ?? name`. -/
def pluginIdentAb (p : PluginChainPlugin) : Str :=
  ((p.identifiers.bind PluginIdentifierMap.ableton) <|>
    (p.identifiers.bind PluginIdentifierMap.vst3) <|>
    (p.identifiers.bind PluginIdentifierMap.generic)).getD p.name

/-- `serializeDevice(plugin, index)` (Ableton). -/
def abSerializeDevice (p : PluginChainPlugin) (i : Nat) : Str :=
  let parameters := joinWith [] (p.settings.map (fun kv =>
    str "<PlugInParameter>\n        <Id Value=\"" ++ xmlEscape kv.1 ++
      str "\"/>\n        <Value Value=\"" ++ xmlEscape kv.2 ++
      str "\"/>\n      </PlugInParameter>"))
  str "<Device>\n    <AudioEffect>\n      <PluginDevice>\n        <PluginType Value=\"VST3\"/>\n        <IsEnabled Value=\"" ++
    (if p.bypassed.getD false then str "false" else str "true") ++
    str "\"/>\n        <PresetName Value=\"" ++ xmlEscape p.name ++
    str "\"/>\n        <UserName Value=\"" ++ xmlEscape p.name ++
    str "\"/>\n        <PluginDesc>\n          <PluginIdentifier Value=\"" ++
    xmlEscape (pluginIdentAb p) ++
    str "\"/>\n        </PluginDesc>\n        <Parameters>" ++ parameters ++
    str "</Parameters>\n        <UserComment Value=\"" ++
    (match p.comment with
     | some c => if c = [] then [] else xmlEscape c
     | none => []) ++
    str "\"/>\n        <PresentationIndex Value=\"" ++ natStr i ++
    str "\"/>\n      </PluginDevice>\n    </AudioEffect>\n  </Device>"

/-- `buildAdg(chain)`: the rack XML document before gzip. -/
def buildAdg (c : PluginChain) : Str :=
  let devices := joinWith []
    ((sortChainPlugins c).enum.map (fun ip => abSerializeDevice ip.2 ip.1))
  prettyXml
    (str "<?xml version=\"1.0\" encoding=\"UTF-8\"?>\n<Ableton MajorVersion=\"11\" MinorVersion=\"0\" SchemaChangeCount=\"0\" Creator=\"ToneTerminal\">\n  <DeviceGroup>\n    " ++
     (match c.summary with
      | some s =>
        if s = [] then []
        else str "<Annotation Author=\"ToneTerminal\">" ++ xmlEscape s ++ str "</Annotation>"
      | none => []) ++
     str "\n    <DeviceChain>\n      <Devices>" ++ devices ++
     str "</Devices>\n    </DeviceChain>\n  </DeviceGroup>\n</Ableton>")

/-- Filename base of the Ableton serializer. -/
def abSafeBase (c : PluginChain) : Str :=
  ((c.song.bind SongMeta.title) <|> c.summary).getD (runsTo isWs 95 c.daw ++ str "_rack")

/-- `AbletonAdgSerializer`. -/
def AbletonAdgSerializer : PresetSerializer where
  id := str "ableton-adg"
  label := str "Ableton Device Rack"
  canHandle := fun d => d == str "ableton_live" || d == str "ableton"
  serialize := fun c =>
    ({ filename := sanitizeFilenameD (abSafeBase c) ++ str ".adg"
       mime := str "application/gzip"
       data := FileData.gzipped (buildAdg c)
       serializerId := str "ableton-adg"
       label := str "Ableton Device Rack"
       isNative := true }, c)

/-! ## DAW identity resolution (`src/data/daws.ts`, `src/lib/daws.ts`) -/

/-- The static DAW table, in declaration order: canonical id paired with
its display label (the other columns of `DAWS` are not consumed by the
serialization core). -/
def DAWS : List (Str × Str) :=
  [(str "fl_studio", str "FL Studio"),
   (str "ableton_live", str "Ableton Live"),
   (str "logic_pro", str "Logic Pro"),
   (str "pro_tools", str "Pro Tools"),
   (str "reaper", str "Reaper"),
   (str "cubase", str "Cubase"),
   (str "studio_one", str "Studio One"),
   (str "bitwig", str "Bitwig"),
   (str "reason", str "Reason"),
   (str "nuendo", str "Nuendo"),
   (str "garageband", str "GarageBand"),
   (str "digital_performer", str "Digital Performer"),
   (str "samplitude", str "Samplitude"),
   (str "cakewalk", str "Cakewalk"),
   (str "ardour", str "Ardour"),
   (str "mixbus", str "Harrison Mixbus"),
   (str "waveform", str "Tracktion Waveform")]

/-- `LABEL_TO_ID`: lower-cased label mapped to id, built by a reduce
over `DAWS` (later entries overwrite earlier ones on key collision). -/
def LABEL_TO_ID : List (Str × Str) :=
  DAWS.map (fun e => (lowerStr e.2, e.1))

/-- JS object property lookup on an entry list built by successive
assignment: the last binding of a key wins. -/
def objGet (entries : List (Str × Str)) (k : Str) : Option Str :=
  (entries.reverse.find? (fun e => e.1 == k)).map (fun e => e.2)

/-- `labelToDawId(label)`: `null`/`undefined`/empty-string input gives
`null`; otherwise trim, lower-case and look the label up. -/
def labelToDawId (label : Option Str) : Option Str :=
  match label with
  | none => none
  | some l => if l = [] then none else objGet LABEL_TO_ID (lowerStr (jsTrim l))

/-! ## Reaper and Logic serializers (sources not in the snapshot) -/

/-- Modelled from the spec: `src/exporters/reaperRfx.ts` is imported by
the registry but its module source is not part of the repository
snapshot.  Per the spec's registry description and DAW table (canonical
id `reaper`, export format `rfxchain`) and the shared serializer
contract, only the dispatch-relevant surface is modelled: the id, the
`canHandle` predicate on the canonical id, the shared filename rule and
`isNative: true`; the payload itself is left empty. -/
def ReaperRfxSerializer : PresetSerializer where
  id := str "reaper-rfx"
  label := str "Reaper FX Chain"
  canHandle := fun d => d == str "reaper"
  serialize := fun c =>
    ({ filename :=
         sanitizeFilenameD
           (((c.song.bind SongMeta.title) <|> c.summary).getD
             (runsTo isWs 95 c.daw ++ str "_chain")) ++ str ".rfxchain"
       mime := str "application/octet-stream"
       data := FileData.text []
       serializerId := str "reaper-rfx"
       label := str "Reaper FX Chain"
       isNative := true }, c)

/-- Modelled from the spec: `src/exporters/logicPatch.ts` is imported by
the registry but its module source is not part of the repository
snapshot.  Per the spec (channel-strip zip archive, `.patch`-style
extension, canonical id `logic_pro`) and the repository's test
expectations (`serializerId` `logic-patch`, zip MIME), only the
dispatch-relevant surface is modelled; the archive's members are left
unmodelled. -/
def LogicPatchSerializer : PresetSerializer where
  id := str "logic-patch"
  label := str "Logic Pro Patch"
  canHandle := fun d => d == str "logic_pro"
  serialize := fun c =>
    ({ filename :=
         sanitizeFilenameD
           (((c.song.bind SongMeta.title) <|> c.summary).getD
             (runsTo isWs 95 c.daw ++ str "_patch")) ++ str ".patch"
       mime := str "application/zip"
       data := FileData.zipArchive []
       serializerId := str "logic-patch"
       label := str "Logic Pro Patch"
       isNative := true }, c)

/-! ## Stub zip fallback (`src/exporters/stubZip.ts`) -/

/-- The ASCII-alphanumeric class `[a-z0-9]` with the `i` flag. -/
def isAlnum (c : Nat) : Bool :=
  (48 ≤ c ∧ c ≤ 57) ∨ (65 ≤ c ∧ c ≤ 90) ∨ (97 ≤ c ∧ c ≤ 122)

/-- `safeDaw`: `chain.daw.replace(/[^a-z0-9]+/gi, "_").toLowerCase()`. -/
def stubSafeDaw (daw : Str) : Str :=
  lowerStr (runsTo (fun c => ! isAlnum c) 95 daw)

/-- The instruction block of `README.txt` (empty-string separator lines
are removed by the source's `filter(Boolean)`). -/
def stubInstructions (c : PluginChain) : Str :=
  joinWith [10]
    ((([some (str "ToneTerminal Export Stub"),
        some (str "======================="),
        some [],
        some (str "DAW: " ++ c.daw),
        (match c.clipWindow with
         | some s => if s = [] then none else some (str "Clip window analyzed: " ++ s)
         | none => none),
        (c.song.map (fun s =>
          str "Reference: " ++ s.title.getD (str "Unknown") ++ str " - " ++
            s.artist.getD (str "Unknown") ++
            (match s.timecode with
             | some tc => if tc = [] then [] else str " (" ++ tc ++ str ")"
             | none => []))),
        some [],
        some (str "This DAW does not yet have a native preset exporter."),
        some (str "Follow these steps to recreate the chain manually:"),
        some [],
        some (str "1. Insert the listed plugins in order."),
        some (str "2. Apply the suggested settings and notes."),
        some (str "3. Save the chain within your DAW for future use."),
        some [],
        some (str "Plugin Chain:")] : List (Option Str)).filterMap id).filter
      (fun l => l ≠ []))

/-- One plugin's block in `README.txt`. -/
def stubChainLine (i : Nat) (p : PluginChainPlugin) : Str :=
  let settings := joinWith [10]
    (p.settings.map (fun kv => str "      - " ++ kv.1 ++ str ": " ++ kv.2))
  joinWith [10]
    (((([some (natStr (i + 1) ++ str ". " ++ p.name ++ str " (" ++ p.type ++ str ")"),
         some (if settings = [] then str "    Settings: (use defaults)"
               else str "    Settings:" ++ [10] ++ settings),
         (match p.comment with
          | some cm => if cm = [] then none else some (str "    Notes: " ++ cm)
          | none => none)]) : List (Option Str)).filterMap id).filter (fun l => l ≠ []))

/-- The full `README.txt` text. -/
def stubReadme (c : PluginChain) : Str :=
  stubInstructions c ++ [10, 10] ++
    joinWith [10, 10] (c.plugins.enum.map (fun ip => stubChainLine ip.1 ip.2)) ++ [10]

/-- One line of `clipboard.txt`. -/
def stubClipboardLine (i : Nat) (p : PluginChainPlugin) : Str :=
  let settings := joinWith (str " | ")
    (p.settings.map (fun kv => kv.1 ++ str ": " ++ kv.2))
  natStr (i + 1) ++ str ". " ++ p.name ++ str " (" ++ p.type ++ str ")" ++
    (if settings = [] then [] else str " -> " ++ settings) ++
    (match p.comment with
     | some cm => if cm = [] then [] else str " // " ++ cm
     | none => [])

/-- The full `clipboard.txt` text. -/
def stubClipboard (c : PluginChain) : Str :=
  joinWith [10] (c.plugins.enum.map (fun ip => stubClipboardLine ip.1 ip.2))

/-- JSON encoding of an optional string field (`x ?? null`). -/
def jsonOptStr (v : Option Str) : Json :=
  match v with
  | some s => Json.jstr s
  | none => Json.jnull

/-- JSON encoding of `settings`. -/
def settingsToJson (s : List (Str × Str)) : Json :=
  Json.jobj (s.map (fun kv => (kv.1, Json.jstr kv.2)))

/-- JSON encoding of one plugin, as `JSON.stringify` renders the plugin
object (absent optional fields are omitted). -/
def pluginToJson (p : PluginChainPlugin) : Json :=
  Json.jobj
    ([(str "name", Json.jstr p.name),
      (str "type", Json.jstr p.type),
      (str "settings", settingsToJson p.settings)] ++
     (match p.comment with
      | some cm => [(str "comment", Json.jstr cm)]
      | none => []) ++
     (match p.bypassed with
      | some b => [(str "bypassed", Json.jbool b)]
      | none => []) ++
     (match p.slotIndex with
      | some i => [(str "slotIndex", Json.jnum i)]
      | none => []))

/-- JSON encoding of the song object (`song ?? null`). -/
def songToJson (s : Option SongMeta) : Json :=
  match s with
  | none => Json.jnull
  | some sm =>
    Json.jobj
      ((match sm.title with
        | some t => [(str "title", Json.jstr t)]
        | none => []) ++
       (match sm.artist with
        | some a => [(str "artist", Json.jstr a)]
        | none => []) ++
       [(str "album", jsonOptStr sm.album), (str "timecode", jsonOptStr sm.timecode)])

/-- The `chain.json` document written by the stub serializer. -/
def chainToJson (c : PluginChain) : Json :=
  Json.jobj
    [(str "daw", Json.jstr c.daw),
     (str "summary", jsonOptStr c.summary),
     (str "clipWindow", jsonOptStr c.clipWindow),
     (str "song", songToJson c.song),
     (str "plugins", Json.jarr (c.plugins.map pluginToJson))]

/-- `StubZipSerializer`: the generic fallback. -/
def StubZipSerializer : PresetSerializer where
  id := str "stub-zip"
  label := str "Stub ZIP Export"
  canHandle := fun _ => true
  serialize := fun c =>
    ({ filename :=
         (if stubSafeDaw c.daw = [] then str "tone" else stubSafeDaw c.daw) ++
           str "_chain_stub.zip"
       mime := str "application/zip"
       data := FileData.zipArchive
         [(str "README.txt", ZipData.ztext (stubReadme c)),
          (str "chain.json", ZipData.zjson (chainToJson c)),
          (str "clipboard.txt", ZipData.ztext (stubClipboard c))]
       serializerId := str "stub-zip"
       label := str "Stub ZIP Export"
       isNative := false }, c)

/-! ## Registry and dispatcher (`src/exporters/index.ts`) -/

/-- The registered native serializers, in registration order. -/
def SERIALIZERS : List PresetSerializer :=
  [ReaperRfxSerializer, FlStudioFstSerializer, AbletonAdgSerializer,
   LogicPatchSerializer, ProToolsPresetSerializer, StudioOnePresetSerializer]

/-- The dispatch identifier:
`chain.dawId ?? labelToDawId(chain.daw) ?? chain.daw.toLowerCase().replace(/\s+/g, "_")`. -/
def resolveDawId (c : PluginChain) : Str :=
  (c.dawId <|> labelToDawId (some c.daw)).getD (runsTo isWs 95 (lowerStr c.daw))

/-- `serializePreset(chain)`: resolve the id, pick the first matching
native serializer, else fall back to the stub.  The serializer receives
a top-level copy `{...chain, dawId}`; the copy shares the caller's
`plugins` array, so the caller-visible post-call chain keeps its own
top-level fields and takes the plugins array as the serializer left
it. -/
def serializePreset (c : PluginChain) : SerializedPreset × PluginChain :=
  match SERIALIZERS.find? (fun s => s.canHandle (resolveDawId c)) with
  | some s =>
    let r := s.serialize { c with dawId := some (resolveDawId c) }
    (r.1, { c with plugins := r.2.plugins })
  | none =>
    let r := StubZipSerializer.serialize { c with dawId := some (resolveDawId c) }
    (r.1, { c with plugins := r.2.plugins })

/-! ## Specification-side definitions

These definitions follow the spec's words (they are compared against the
source-derived definitions above by the refinement theorems; they are
not translations of source code). -/

/-- The filename algorithm exactly as the claim states it: lower-case,
replace each run of characters outside `[A-Za-z0-9._-]` with a single
underscore, trim leading and trailing underscores, fall back when
empty.  (No collapsing of pre-existing underscore runs.) -/
def sanitizeFilenameClaimed (name fallback : Str) : Str :=
  if trimBy (fun c => c == 95) (runsTo (fun c => ! isFileSafe c) 95 (lowerStr name)) = []
  then fallback
  else trimBy (fun c => c == 95) (runsTo (fun c => ! isFileSafe c) 95 (lowerStr name))

/-- The amended filename algorithm: as claimed, but additionally every
run of underscores (pre-existing ones included) is collapsed to a
single underscore before trimming. -/
def sanitizeAmendedCore (name : Str) : Str :=
  trimBy (fun c => c == 95)
    (runsTo (fun c => c == 95) 95 (runsTo (fun c => ! isFileSafe c) 95 (lowerStr name)))

/-- The fallback step of the amended algorithm. -/
def sanitizeFilenameAmended (name fallback : Str) : Str :=
  if sanitizeAmendedCore name = [] then fallback else sanitizeAmendedCore name

/-- Split a string at every CRLF pair and every lone LF (the matches of
`/\r?\n/g`); the resulting pieces contain no LF. -/
def splitNewlines : Str → List Str
  | [] => [[]]
  | 13 :: 10 :: rest => [] :: splitNewlines rest
  | 10 :: rest => [] :: splitNewlines rest
  | c :: rest =>
    match splitNewlines rest with
    | [] => [[c]]
    | piece :: more => (c :: piece) :: more

/-- Split a string into its LF-separated lines. -/
def splitLF : Str → List Str
  | [] => [[]]
  | 10 :: rest => [] :: splitLF rest
  | c :: rest =>
    match splitLF rest with
    | [] => [[c]]
    | line :: more => (c :: line) :: more

/-- The XML entity expansion of one character: the five escaped
characters map to their entities, every other character to itself. -/
def entCh (c : Nat) : Str :=
  if c = 38 then str "&amp;"
  else if c = 60 then str "&lt;"
  else if c = 62 then str "&gt;"
  else if c = 34 then str "&quot;"
  else if c = 39 then str "&apos;"
  else [c]

/-- Character-wise entity expansion. -/
def xmlEscapeSpec : Str → Str
  | [] => []
  | c :: rest => entCh c ++ xmlEscapeSpec rest

/-- Modelled from the spec: the standard XML entity unescaping — each
occurrence of one of the five entities becomes its character, all other
characters pass through. -/
def xmlUnescape : Str → Str
  | 38 :: 97 :: 109 :: 112 :: 59 :: rest => 38 :: xmlUnescape rest
  | 38 :: 108 :: 116 :: 59 :: rest => 60 :: xmlUnescape rest
  | 38 :: 103 :: 116 :: 59 :: rest => 62 :: xmlUnescape rest
  | 38 :: 113 :: 117 :: 111 :: 116 :: 59 :: rest => 34 :: xmlUnescape rest
  | 38 :: 97 :: 112 :: 111 :: 115 :: 59 :: rest => 39 :: xmlUnescape rest
  | c :: rest => c :: xmlUnescape rest
  | [] => []

/-- The decoration used to state stability of `sortChainPlugins`: each
plugin paired with its effective order key and its original index. -/
def keyedIdxPlugins (c : PluginChain) : List ((Int × Nat) × PluginChainPlugin) :=
  c.plugins.enum.map (fun ip => ((ip.2.slotIndex.getD (Int.ofNat ip.1), ip.1), ip.2))

/-- Lexicographic comparison on (effective key, original index): the
order of the unique stable sort. -/
def lexLe (a b : (Int × Nat) × PluginChainPlugin) : Bool :=
  decide (a.1.1 < b.1.1 ∨ (a.1.1 = b.1.1 ∧ a.1.2 ≤ b.1.2))

/-- Forget the original-index component of the stability decoration. -/
def dropIdx (a : (Int × Nat) × PluginChainPlugin) : Int × PluginChainPlugin :=
  (a.1.1, a.2)

/-- The entry paths of a zip payload (empty for non-archives). -/
def zipPaths : FileData → List Str
  | FileData.zipArchive es => es.map (fun e => e.1)
  | _ => []

/-- The JSON document stored at `path` in a zip payload, if any. -/
def jsonEntry (d : FileData) (path : Str) : Option Json :=
  match d with
  | FileData.zipArchive es =>
    match es.find? (fun e => e.1 == path) with
    | some (_, ZipData.zjson j) => some j
    | _ => none
  | _ => none

/-- Field lookup in a JSON object. -/
def jsonField (j : Json) (k : Str) : Option Json :=
  match j with
  | Json.jobj fields => (fields.find? (fun f => f.1 == k)).map (fun f => f.2)
  | _ => none

/-- Decode a JSON string. -/
def jsonAsStr : Json → Option Str
  | Json.jstr s => some s
  | _ => none

/-- Decode a field list back to key/value string pairs. -/
def settingsOfFields : List (Str × Json) → Option (List (Str × Str))
  | [] => some []
  | f :: rest =>
    match jsonAsStr f.2, settingsOfFields rest with
    | some v, some tail => some ((f.1, v) :: tail)
    | _, _ => none

/-- Decode a settings object back to its key/value pairs. -/
def jsonAsSettings : Json → Option (List (Str × Str))
  | Json.jobj fields => settingsOfFields fields
  | _ => none

/-- Decode one serialized plugin back to its name, type and settings. -/
def decodePluginNTS (j : Json) : Option (Str × Str × List (Str × Str)) := do
  let n ← jsonField j (str "name") >>= jsonAsStr
  let t ← jsonField j (str "type") >>= jsonAsStr
  let s ← match jsonField j (str "settings") with
          | some js => jsonAsSettings js
          | none => none
  pure (n, t, s)

/-- Decode a list of serialized plugins. -/
def decodePluginList : List Json → Option (List (Str × Str × List (Str × Str)))
  | [] => some []
  | j :: rest =>
    match decodePluginNTS j, decodePluginList rest with
    | some x, some tail => some (x :: tail)
    | _, _ => none

/-- Decode a `chain.json` document back to the plugin names, types and
settings it recorded. -/
def decodeChainNTS (j : Json) : Option (List (Str × Str × List (Str × Str))) :=
  match jsonField j (str "plugins") with
  | some (Json.jarr ps) => decodePluginList ps
  | _ => none

/-! ## Concrete example inputs used by witnesses and counterexamples -/

/-- The one-plugin FL Studio chain of the spec's first end-to-end
scenario. -/
def exFlChain : PluginChain :=
  { daw := str "fl_studio",
    plugins := [{ name := str "Tone EQ", type := str "Equalizer",
                  settings := [(str "Gain", str "+3dB")] }] }

/-- A plugin with a non-empty `parameters` list and empty `settings`. -/
def exParamPlugin : PluginChainPlugin :=
  { name := str "Tone EQ", type := str "Equalizer", settings := [],
    parameters := some [{ id := str "cutoff", label := some (str "Cutoff"),
                          value := str "100" }] }

/-- A plugin whose comment holds a newline and an equals sign. -/
def exCommentPlugin : PluginChainPlugin :=
  { name := str "Tone EQ", type := str "Equalizer",
    settings := [(str "Gain", str "+3dB")],
    comment := some (str "line one\nGain=+3dB") }

/-- A two-plugin chain with slot indices 5 and 1, in that array order. -/
def exSlotChain : PluginChain :=
  { daw := str "fl_studio",
    plugins := [{ name := str "Late", type := str "Reverb", settings := [],
                  slotIndex := some 5 },
                { name := str "Early", type := str "Equalizer", settings := [],
                  slotIndex := some 1 }] }

/-- A chain for a DAW with no native serializer. -/
def exStubChain : PluginChain :=
  { daw := str "Bitwig",
    summary := some (str "Test chain"),
    song := some { title := some (str "Song A") },
    plugins := [{ name := str "Tone EQ", type := str "Equalizer",
                  settings := [(str "Gain", str "+3dB")],
                  comment := some (str "Boost presence") }] }

/-! ## Lemmas: run replacement and trimming -/

theorem runsToAux_eq_self (p : Nat → Bool) (r : Nat) :
    ∀ (l : Str) (f : Bool), (∀ c ∈ l, p c = false) → runsToAux p r f l = l := by
  intro l
  induction l with
  | nil => intro f _; rfl
  | cons c rest ih =>
    intro f h
    have hc : p c = false := h c (List.mem_cons_self c rest)
    simp only [runsToAux, hc, Bool.false_eq_true, if_false]
    exact congrArg (c :: ·) (ih false (fun d hd => h d (List.mem_cons_of_mem c hd)))

theorem mem_runsToAux (p : Nat → Bool) (r : Nat) :
    ∀ (l : Str) (f : Bool) (c : Nat), c ∈ runsToAux p r f l →
      c = r ∨ (c ∈ l ∧ p c = false) := by
  intro l
  induction l with
  | nil => intro f c h; simp [runsToAux] at h
  | cons d rest ih =>
    intro f c h
    by_cases hd : p d = true
    · simp only [runsToAux, hd, if_true] at h
      rcases List.mem_append.mp h with h1 | h2
      · left
        cases f <;> simp_all
      · rcases ih true c h2 with h | ⟨hm, hp⟩
        · exact Or.inl h
        · exact Or.inr ⟨List.mem_cons_of_mem d hm, hp⟩
    · simp only [runsToAux, hd, if_false] at h
      rcases List.mem_cons.mp h with rfl | h2
      · exact Or.inr ⟨List.mem_cons_self c rest, Bool.eq_false_iff.mpr hd⟩
      · rcases ih false c h2 with h | ⟨hm, hp⟩
        · exact Or.inl h
        · exact Or.inr ⟨List.mem_cons_of_mem d hm, hp⟩

theorem head_runsToAux_true (p : Nat → Bool) (r : Nat) :
    ∀ (l : Str) (c : Nat), (runsToAux p r true l).head? = some c → p c = false := by
  intro l
  induction l with
  | nil => intro c h; simp [runsToAux] at h
  | cons d rest ih =>
    intro c h
    cases hd : p d with
    | true =>
      simp only [runsToAux, hd, if_true, List.nil_append] at h
      exact ih c h
    | false =>
      simp only [runsToAux, hd, Bool.false_eq_true, if_false, List.head?_cons,
        Option.some.injEq] at h
      subst h
      exact hd

theorem chain'_runsToAux (p : Nat → Bool) (r : Nat) :
    ∀ (l : Str) (f : Bool),
      List.Chain' (fun a b => p a = false ∨ p b = false) (runsToAux p r f l) := by
  intro l
  induction l with
  | nil => intro f; simp [runsToAux]
  | cons d rest ih =>
    intro f
    by_cases hd : p d = true
    · cases f with
      | true => simpa [runsToAux, hd] using ih true
      | false =>
        simp only [runsToAux, hd, if_true, if_false, List.singleton_append]
        refine List.chain'_cons'.mpr ⟨?_, ih true⟩
        intro b hb
        exact Or.inr (head_runsToAux_true p r rest b hb)
    · simp only [runsToAux, hd, if_false]
      refine List.chain'_cons'.mpr ⟨?_, ih false⟩
      intro b _
      exact Or.inl (Bool.eq_false_iff.mpr hd)

theorem runsToAux_fixpoint (p : Nat → Bool) (r : Nat) :
    ∀ (l : Str) (f : Bool), (∀ c ∈ l, p c = true → c = r) →
      List.Chain' (fun a b => p a = false ∨ p b = false) l →
      (f = true → ∀ c, l.head? = some c → p c = false) →
      runsToAux p r f l = l := by
  intro l
  induction l with
  | nil => intro f _ _ _; rfl
  | cons d rest ih =>
    intro f hall hch hf
    by_cases hd : p d = true
    · have hdr : d = r := hall d (List.mem_cons_self d rest) hd
      have hfr : f = false := by
        cases f with
        | false => rfl
        | true => exact absurd hd (by simp [hf rfl d rfl])
      subst hfr
      simp only [runsToAux, hd, if_true, Bool.false_eq_true, if_false,
        List.singleton_append]
      have hrest : runsToAux p r true rest = rest := by
        refine ih true (fun c hc hpc => hall c (List.mem_cons_of_mem d hc) hpc)
          (List.Chain'.tail hch) ?_
        intro _ c hc
        rcases (List.chain'_cons'.mp hch).1 c hc with h1 | h1
        · exact absurd hd (by simp [h1])
        · exact h1
      rw [hrest, hdr]
    · simp only [runsToAux, hd, if_false]
      refine congrArg (d :: ·) (ih false
        (fun c hc hpc => hall c (List.mem_cons_of_mem d hc) hpc)
        (List.Chain'.tail hch) (by intro h; cases h))

theorem runsToAux_map (p : Nat → Bool) (r : Nat) (g : Nat → Nat)
    (hp : ∀ c, p (g c) = p c) (hr : g r = r) :
    ∀ (l : Str) (f : Bool), runsToAux p r f (l.map g) = (runsToAux p r f l).map g := by
  intro l
  induction l with
  | nil => intro f; rfl
  | cons d rest ih =>
    intro f
    by_cases hd : p d = true
    · have : p (g d) = true := by rw [hp]; exact hd
      simp only [List.map_cons, runsToAux, this, hd, if_true, List.map_append, ih true]
      cases f <;> simp [hr]
    · have : p (g d) = false := by rw [hp]; exact Bool.eq_false_iff.mpr hd
      simp only [List.map_cons, runsToAux, this, hd, Bool.false_eq_true, if_false,
        List.map_cons, ih false]

theorem head?_dropWhile (p : Nat → Bool) :
    ∀ (l : Str) (c : Nat), (l.dropWhile p).head? = some c → p c = false := by
  intro l
  induction l with
  | nil => intro c h; simp [List.dropWhile] at h
  | cons d rest ih =>
    intro c h
    by_cases hd : p d = true
    · rw [List.dropWhile_cons, if_pos hd] at h
      exact ih c h
    · rw [List.dropWhile_cons, if_neg hd] at h
      simp only [List.head?_cons, Option.some.injEq] at h
      subst h
      exact Bool.eq_false_iff.mpr hd

theorem getLast?_dropWhile (p : Nat → Bool) :
    ∀ l : Str, l.dropWhile p ≠ [] → (l.dropWhile p).getLast? = l.getLast? := by
  intro l
  induction l with
  | nil => intro h; simp [List.dropWhile] at h
  | cons d rest ih =>
    intro h
    by_cases hd : p d = true
    · rw [List.dropWhile_cons, if_pos hd] at h ⊢
      rw [ih h]
      have hrest : rest ≠ [] := by
        intro he
        subst he
        exact h rfl
      cases rest with
      | nil => exact absurd rfl hrest
      | cons e tail => simp [List.getLast?_cons_cons]
    · rw [List.dropWhile_cons, if_neg hd]

theorem trimBy_eq_self (p : Nat → Bool) (l : Str)
    (h1 : ∀ c, l.head? = some c → p c = false)
    (h2 : ∀ c, l.getLast? = some c → p c = false) : trimBy p l = l := by
  have hd1 : l.dropWhile p = l := by
    cases l with
    | nil => rfl
    | cons c rest =>
      rw [List.dropWhile_cons, if_neg (by simp [h1 c rfl])]
  have hd2 : l.reverse.dropWhile p = l.reverse := by
    cases hrev : l.reverse with
    | nil => rfl
    | cons c rest =>
      rw [List.dropWhile_cons, if_neg ?_]
      have : l.getLast? = some c := by
        rw [← List.head?_reverse, hrev, List.head?_cons]
      simp [h2 c this]
  unfold trimBy
  rw [hd1, hd2, List.reverse_reverse]

theorem trimBy_contained (p : Nat → Bool) (l : Str) : trimBy p l <:+: l := by
  have h1 : l.dropWhile p <:+ l := List.dropWhile_suffix p
  have h2 : (l.dropWhile p).reverse.dropWhile p <:+ (l.dropWhile p).reverse :=
    List.dropWhile_suffix p
  have h3 : trimBy p l <+: l.dropWhile p := by
    have := List.reverse_prefix.mpr h2
    rw [List.reverse_reverse] at this
    exact this
  exact List.IsInfix.trans h3.isInfix h1.isInfix

theorem mem_trimBy (p : Nat → Bool) (l : Str) (c : Nat) (h : c ∈ trimBy p l) : c ∈ l :=
  (trimBy_contained p l).subset h

theorem head?_trimBy (p : Nat → Bool) (l : Str) (c : Nat)
    (h : (trimBy p l).head? = some c) : p c = false := by
  have hne : (l.dropWhile p).reverse.dropWhile p ≠ [] := by
    intro he
    unfold trimBy at h
    rw [he] at h
    simp at h
  have : (trimBy p l).head? = ((l.dropWhile p).reverse.dropWhile p).getLast? := by
    unfold trimBy
    rw [List.head?_reverse]
  rw [this, getLast?_dropWhile p _ hne, List.getLast?_reverse] at h
  exact head?_dropWhile p l c h

theorem getLast?_trimBy (p : Nat → Bool) (l : Str) (c : Nat)
    (h : (trimBy p l).getLast? = some c) : p c = false := by
  unfold trimBy at h
  rw [List.getLast?_reverse] at h
  exact head?_dropWhile p _ c h

theorem trimBy_map (p : Nat → Bool) (g : Nat → Nat) (hp : ∀ c, p (g c) = p c) (l : Str) :
    trimBy p (l.map g) = (trimBy p l).map g := by
  have hpg : p ∘ g = p := funext hp
  unfold trimBy
  rw [List.dropWhile_map, hpg, ← List.map_reverse, List.dropWhile_map, hpg,
    ← List.map_reverse]

/-! ## Lemmas: character classes under lower-casing -/

theorem lowerCh_lowerCh (c : Nat) : lowerCh (lowerCh c) = lowerCh c := by
  by_cases h : 65 ≤ c ∧ c ≤ 90
  · have h1 : lowerCh c = c + 32 := by unfold lowerCh; exact if_pos h
    rw [h1]
    unfold lowerCh
    exact if_neg (by omega)
  · have h1 : lowerCh c = c := by unfold lowerCh; exact if_neg h
    rw [h1]
    exact h1

theorem isFileSafe_lowerCh (c : Nat) : isFileSafe (lowerCh c) = isFileSafe c := by
  unfold lowerCh
  by_cases h : 65 ≤ c ∧ c ≤ 90
  · rw [if_pos h]
    unfold isFileSafe
    rw [decide_eq_decide]
    omega
  · rw [if_neg h]

theorem lowerCh_eq_95 (c : Nat) : (lowerCh c == 95) = (c == 95) := by
  unfold lowerCh
  by_cases h : 65 ≤ c ∧ c ≤ 90
  · rw [if_pos h, Bool.eq_iff_iff]
    simp only [beq_iff_eq]
    omega
  · rw [if_neg h]

theorem isWs_lowerCh (c : Nat) : isWs (lowerCh c) = isWs c := by
  unfold lowerCh
  by_cases h : 65 ≤ c ∧ c ≤ 90
  · rw [if_pos h]
    unfold isWs
    rw [decide_eq_decide]
    omega
  · rw [if_neg h]

theorem lowerStr_lowerStr (s : Str) : lowerStr (lowerStr s) = lowerStr s := by
  unfold lowerStr
  rw [List.map_map]
  exact List.map_congr_left (fun c _ => lowerCh_lowerCh c)

/-! ## Lemmas: the sanitize pipeline -/

theorem sanitize_core_safe (x : Str) (c : Nat)
    (h : c ∈ trimBy (fun d => d == 95)
      (runsTo (fun d => d == 95) 95 (runsTo (fun d => ! isFileSafe d) 95 x))) :
    isFileSafe c = true := by
  have h2 := mem_trimBy _ _ _ h
  rcases mem_runsToAux _ _ _ _ _ h2 with rfl | ⟨h3, _⟩
  · decide
  · rcases mem_runsToAux _ _ _ _ _ h3 with rfl | ⟨_, h4⟩
    · decide
    · simpa using h4

theorem mem_sanitizeCore_safe (x : Str) (c : Nat) (h : c ∈ sanitizeCore x) :
    isFileSafe c = true := by
  rcases List.mem_map.mp h with ⟨d, hd, rfl⟩
  rw [isFileSafe_lowerCh]
  exact sanitize_core_safe x d hd

theorem sanitizeCore_eq_amended (x : Str) : sanitizeAmendedCore x = sanitizeCore x := by
  have h1 : runsTo (fun d => ! isFileSafe d) 95 (lowerStr x) =
      lowerStr (runsTo (fun d => ! isFileSafe d) 95 x) :=
    runsToAux_map _ 95 lowerCh (fun c => by rw [isFileSafe_lowerCh]) (by decide) x false
  have h2 : ∀ s : Str, runsTo (fun d => d == 95) 95 (lowerStr s) =
      lowerStr (runsTo (fun d => d == 95) 95 s) := fun s =>
    runsToAux_map _ 95 lowerCh (fun c => lowerCh_eq_95 c) (by decide) s false
  have h3 : ∀ s : Str, trimBy (fun d => d == 95) (lowerStr s) =
      lowerStr (trimBy (fun d => d == 95) s) := fun s =>
    trimBy_map _ lowerCh (fun c => lowerCh_eq_95 c) s
  unfold sanitizeAmendedCore sanitizeCore
  rw [h1, h2, h3]

theorem sanitizeFilename_eq_amended (x f : Str) :
    sanitizeFilename x f = sanitizeFilenameAmended x f := by
  unfold sanitizeFilename sanitizeFilenameAmended
  rw [sanitizeCore_eq_amended]

theorem sanitizeCore_fixpoint (x : Str) : sanitizeCore (sanitizeCore x) = sanitizeCore x := by
  set y := sanitizeCore x with hy
  have hsafe : ∀ c ∈ y, isFileSafe c = true := mem_sanitizeCore_safe x
  have hstep1 : runsTo (fun d => ! isFileSafe d) 95 y = y :=
    runsToAux_eq_self _ 95 y false (fun c hc => by simp [hsafe c hc])
  have hchain : List.Chain'
      (fun a b => (a == 95) = false ∨ (b == 95) = false) y := by
    have hc2 : List.Chain' (fun a b => ((a == 95) = false ∨ (b == 95) = false))
        (runsTo (fun d => d == 95) 95 (runsTo (fun d => ! isFileSafe d) 95 x)) :=
      chain'_runsToAux _ 95 _ false
    have hc3 := hc2.infix (trimBy_contained (fun d => d == 95)
      (runsTo (fun d => d == 95) 95 (runsTo (fun d => ! isFileSafe d) 95 x)))
    rw [hy]
    unfold sanitizeCore lowerStr
    refine (List.chain'_map lowerCh).mpr (hc3.imp ?_)
    intro a b hab
    rwa [lowerCh_eq_95, lowerCh_eq_95]
  have hstep2 : runsTo (fun d => d == 95) 95 y = y := by
    refine runsToAux_fixpoint _ 95 y false ?_ hchain ?_
    · intro c _ hc
      simpa using hc
    · intro h
      cases h
  have hstep3 : trimBy (fun d => d == 95) y = y := by
    refine trimBy_eq_self _ y ?_ ?_
    · intro c hc
      rw [hy] at hc
      unfold sanitizeCore lowerStr at hc
      rw [List.head?_map] at hc
      cases hh : (trimBy (fun d => d == 95)
          (runsTo (fun d => d == 95) 95 (runsTo (fun d => ! isFileSafe d) 95 x))).head? with
      | none => rw [hh] at hc; cases hc
      | some d =>
        rw [hh] at hc
        simp only [Option.map] at hc
        rw [Option.some.injEq] at hc
        subst hc
        rw [lowerCh_eq_95]
        exact head?_trimBy _ _ d hh
    · intro c hc
      rw [hy] at hc
      unfold sanitizeCore lowerStr at hc
      rw [List.getLast?_map] at hc
      cases hh : (trimBy (fun d => d == 95)
          (runsTo (fun d => d == 95) 95 (runsTo (fun d => ! isFileSafe d) 95 x))).getLast? with
      | none => rw [hh] at hc; cases hc
      | some d =>
        rw [hh] at hc
        simp only [Option.map] at hc
        rw [Option.some.injEq] at hc
        subst hc
        rw [lowerCh_eq_95]
        exact getLast?_trimBy _ _ d hh
  have hlower : lowerStr y = y := by
    rw [hy]
    unfold sanitizeCore
    exact lowerStr_lowerStr _
  have hcore : sanitizeCore y = lowerStr (trimBy (fun c => c == 95)
      (runsTo (fun c => c == 95) 95 (runsTo (fun c => ! isFileSafe c) 95 y))) := rfl
  rw [hcore, hstep1, hstep2, hstep3]
  exact hlower

/-- C7, counterexample: on `"a__b"` the code collapses the pre-existing
double underscore while the claimed algorithm keeps it, so the claim as
stated fails at this input. -/
theorem claim_C7_counterexample :
    sanitizeFilename (str "a__b") (str "tone-terminal") = str "a_b" ∧
    sanitizeFilenameClaimed (str "a__b") (str "tone-terminal") = str "a__b" ∧
    str "a_b" ≠ str "a__b" := by
  refine ⟨by decide, by decide, by decide⟩

/-- C7 (amended): `sanitizeFilename` lower-cases, replaces runs of
characters outside `[A-Za-z0-9._-]` with a single underscore, *also
collapses every run of underscores (pre-existing ones included) to a
single underscore*, trims leading and trailing underscores, and returns
the fallback when the result is empty; at the default fallback it is
idempotent, its result never contains `/` (code point 47), and it never
returns the empty string. -/
theorem claim_C7 :
    (∀ x f, sanitizeFilename x f = sanitizeFilenameAmended x f) ∧
    (∀ x, sanitizeFilenameD (sanitizeFilenameD x) = sanitizeFilenameD x) ∧
    (∀ x, (47 : Nat) ∉ sanitizeFilenameD x) ∧
    (∀ x, sanitizeFilenameD x ≠ []) := by
  refine ⟨sanitizeFilename_eq_amended, ?_, ?_, ?_⟩
  · intro x
    unfold sanitizeFilenameD sanitizeFilename
    by_cases h : sanitizeCore x = []
    · rw [if_pos h]
      decide
    · rw [if_neg h, if_neg (by rw [sanitizeCore_fixpoint]; exact h),
        sanitizeCore_fixpoint]
  · intro x hmem
    unfold sanitizeFilenameD sanitizeFilename at hmem
    by_cases h : sanitizeCore x = []
    · rw [if_pos h] at hmem
      revert hmem
      decide
    · rw [if_neg h] at hmem
      have := mem_sanitizeCore_safe x 47 hmem
      revert this
      decide
  · intro x
    unfold sanitizeFilenameD sanitizeFilename
    by_cases h : sanitizeCore x = []
    · rw [if_pos h]
      decide
    · rw [if_neg h]
      exact h

/-! ## Lemmas: XML escaping -/

theorem replaceCh_append (c : Nat) (rep : Str) (a b : Str) :
    replaceCh c rep (a ++ b) = replaceCh c rep a ++ replaceCh c rep b := by
  induction a with
  | nil => rfl
  | cons d rest ih =>
    simp only [List.cons_append, replaceCh, List.append_eq, ih, List.append_assoc]

theorem xmlEscape_append (a b : Str) : xmlEscape (a ++ b) = xmlEscape a ++ xmlEscape b := by
  unfold xmlEscape
  rw [replaceCh_append, replaceCh_append, replaceCh_append, replaceCh_append,
    replaceCh_append]

theorem xmlEscape_single (c : Nat) : xmlEscape [c] = entCh c := by
  by_cases h38 : c = 38
  · subst h38; decide
  by_cases h60 : c = 60
  · subst h60; decide
  by_cases h62 : c = 62
  · subst h62; decide
  by_cases h34 : c = 34
  · subst h34; decide
  by_cases h39 : c = 39
  · subst h39; decide
  unfold xmlEscape replaceCh entCh
  simp only [h38, h60, h62, h34, h39, if_false, List.append_nil]
  simp [replaceCh, h38, h60, h62, h34, h39]

theorem xmlEscape_eq_spec (s : Str) : xmlEscape s = xmlEscapeSpec s := by
  induction s with
  | nil => rfl
  | cons c rest ih =>
    have : (c :: rest : Str) = [c] ++ rest := rfl
    rw [this, xmlEscape_append, xmlEscape_single, ih]
    rfl

set_option maxHeartbeats 1600000 in
theorem xmlUnescape_cons_ne (c : Nat) (rest : Str) (hc : c ≠ 38) :
    xmlUnescape (c :: rest) = c :: xmlUnescape rest := by
  rw [xmlUnescape.eq_def]
  split
  · simp_all
  · simp_all
  · simp_all
  · simp_all
  · simp_all
  · simp_all
  · simp_all

theorem xmlUnescape_spec (s : Str) : xmlUnescape (xmlEscapeSpec s) = s := by
  induction s with
  | nil => rfl
  | cons c rest ih =>
    show xmlUnescape (entCh c ++ xmlEscapeSpec rest) = c :: rest
    by_cases h38 : c = 38
    · subst h38
      show xmlUnescape (38 :: 97 :: 109 :: 112 :: 59 :: xmlEscapeSpec rest) = _
      rw [show ∀ t : Str, xmlUnescape (38 :: 97 :: 109 :: 112 :: 59 :: t) =
        38 :: xmlUnescape t from fun t => rfl, ih]
    by_cases h60 : c = 60
    · subst h60
      show xmlUnescape (38 :: 108 :: 116 :: 59 :: xmlEscapeSpec rest) = _
      rw [show ∀ t : Str, xmlUnescape (38 :: 108 :: 116 :: 59 :: t) =
        60 :: xmlUnescape t from fun t => rfl, ih]
    by_cases h62 : c = 62
    · subst h62
      show xmlUnescape (38 :: 103 :: 116 :: 59 :: xmlEscapeSpec rest) = _
      rw [show ∀ t : Str, xmlUnescape (38 :: 103 :: 116 :: 59 :: t) =
        62 :: xmlUnescape t from fun t => rfl, ih]
    by_cases h34 : c = 34
    · subst h34
      show xmlUnescape (38 :: 113 :: 117 :: 111 :: 116 :: 59 :: xmlEscapeSpec rest) = _
      rw [show ∀ t : Str, xmlUnescape (38 :: 113 :: 117 :: 111 :: 116 :: 59 :: t) =
        34 :: xmlUnescape t from fun t => rfl, ih]
    by_cases h39 : c = 39
    · subst h39
      show xmlUnescape (38 :: 97 :: 112 :: 111 :: 115 :: 59 :: xmlEscapeSpec rest) = _
      rw [show ∀ t : Str, xmlUnescape (38 :: 97 :: 112 :: 111 :: 115 :: 59 :: t) =
        39 :: xmlUnescape t from fun t => rfl, ih]
    have : entCh c = [c] := by
      unfold entCh
      simp [h38, h60, h62, h34, h39]
    rw [this, List.singleton_append, xmlUnescape_cons_ne c _ h38, ih]

/-- C8: `xmlEscape` performs the five entity replacements in source
order (ampersand first), which makes it exactly the character-wise
entity expansion, and XML entity unescaping recovers the original
string from its output. -/
theorem claim_C8 :
    (∀ s, xmlEscape s = xmlEscapeSpec s) ∧
    (∀ s, xmlUnescape (xmlEscape s) = s) := by
  refine ⟨xmlEscape_eq_spec, fun s => ?_⟩
  rw [xmlEscape_eq_spec]
  exact xmlUnescape_spec s

/-! ## Lemmas: line-oriented escaping -/

theorem joinWith_singleton (sep x : Str) : joinWith sep [x] = x := by
  simp [joinWith, List.intercalate]

theorem joinWith_cons₂ (sep x y : Str) (rest : List Str) :
    joinWith sep (x :: y :: rest) = x ++ sep ++ joinWith sep (y :: rest) := by
  simp [joinWith, List.intercalate, List.append_assoc]

theorem splitNewlines_cons_other (c : Nat) (rest : Str)
    (h1 : ∀ t : List Nat, c = 13 → rest = 10 :: t → False) (h2 : c = 10 → False) :
    splitNewlines (c :: rest) =
      match splitNewlines rest with
      | [] => [[c]]
      | piece :: more => (c :: piece) :: more := by
  rw [splitNewlines.eq_def]
  split <;> simp_all

theorem splitNewlines_ne_nil (s : Str) : splitNewlines s ≠ [] := by
  induction s using collapseNewlines.induct with
  | case1 => simp [splitNewlines]
  | case2 rest ih => simp [splitNewlines]
  | case3 rest ih => simp [splitNewlines]
  | case4 c rest h1 h2 ih =>
    rw [splitNewlines_cons_other c rest h1 h2]
    cases hsp : splitNewlines rest <;> simp

theorem collapseNewlines_cons_other (c : Nat) (rest : Str)
    (h1 : ∀ t : List Nat, c = 13 → rest = 10 :: t → False) (h2 : c = 10 → False) :
    collapseNewlines (c :: rest) = c :: collapseNewlines rest := by
  rw [collapseNewlines.eq_def]
  split <;> simp_all

theorem collapseNewlines_eq_join (s : Str) :
    collapseNewlines s = joinWith [32] (splitNewlines s) := by
  induction s using collapseNewlines.induct with
  | case1 => rfl
  | case2 rest ih =>
    show 32 :: collapseNewlines rest = joinWith [32] ([] :: splitNewlines rest)
    cases hsp : splitNewlines rest with
    | nil => exact absurd hsp (splitNewlines_ne_nil rest)
    | cons piece more =>
      rw [joinWith_cons₂]
      rw [hsp] at ih
      simp [ih]
  | case3 rest ih =>
    show 32 :: collapseNewlines rest = joinWith [32] ([] :: splitNewlines rest)
    cases hsp : splitNewlines rest with
    | nil => exact absurd hsp (splitNewlines_ne_nil rest)
    | cons piece more =>
      rw [joinWith_cons₂]
      rw [hsp] at ih
      simp [ih]
  | case4 c rest h1 h2 ih =>
    rw [collapseNewlines_cons_other c rest h1 h2, splitNewlines_cons_other c rest h1 h2]
    cases hsp : splitNewlines rest with
    | nil => exact absurd hsp (splitNewlines_ne_nil rest)
    | cons piece more =>
      rw [hsp] at ih
      cases more with
      | nil =>
        rw [joinWith_singleton] at *
        rw [ih]
      | cons piece2 more2 =>
        rw [joinWith_cons₂] at ih
        rw [joinWith_cons₂, ih]
        rfl

theorem noLF_collapseNewlines (s : Str) : (10 : Nat) ∉ collapseNewlines s := by
  induction s using collapseNewlines.induct with
  | case1 => simp [collapseNewlines]
  | case2 rest ih =>
    show (10 : Nat) ∉ 32 :: collapseNewlines rest
    simp only [List.mem_cons]
    rintro (h | h)
    · omega
    · exact ih h
  | case3 rest ih =>
    show (10 : Nat) ∉ 32 :: collapseNewlines rest
    simp only [List.mem_cons]
    rintro (h | h)
    · omega
    · exact ih h
  | case4 c rest h1 h2 ih =>
    rw [collapseNewlines_cons_other c rest h1 h2]
    simp only [List.mem_cons]
    rintro (h | h)
    · exact h2 h.symm
    · exact ih h

theorem eqToDash_ne_61 (c : Nat) : eqToDash c ≠ 61 := by
  unfold eqToDash
  by_cases h : c = 61
  · rw [if_pos h]
    omega
  · rw [if_neg h]
    exact h

theorem noEq_escapeValue (s : Str) : (61 : Nat) ∉ escapeValue s := by
  unfold escapeValue
  intro h
  rcases List.mem_map.mp h with ⟨d, _, hd⟩
  exact eqToDash_ne_61 d hd

theorem noLF_escapeValue (s : Str) : (10 : Nat) ∉ escapeValue s := by
  unfold escapeValue
  intro h
  rcases List.mem_map.mp h with ⟨d, hd, hde⟩
  have hd10 : d = 10 := by
    unfold eqToDash at hde
    by_cases h61 : d = 61
    · rw [if_pos h61] at hde
      omega
    · rwa [if_neg h61] at hde
  subst hd10
  exact noLF_collapseNewlines s hd

theorem map_joinWith (f : Nat → Nat) (sep : Str) (L : List Str) :
    (joinWith sep L).map f = joinWith (sep.map f) (L.map (List.map f)) := by
  induction L with
  | nil => rfl
  | cons x rest ih =>
    cases rest with
    | nil => simp [joinWith_singleton]
    | cons y rest2 =>
      simp only [List.map_cons]
      rw [joinWith_cons₂, joinWith_cons₂, List.map_append, List.map_append, ih]
      simp only [List.map_cons]

theorem escapeValue_eq_join (s : Str) :
    escapeValue s = joinWith [32] ((splitNewlines s).map (List.map eqToDash)) := by
  unfold escapeValue
  rw [collapseNewlines_eq_join, map_joinWith]
  rfl

theorem comment_line_mem (i : Nat) (p : PluginChainPlugin) (cm : Str)
    (hcm : p.comment = some cm) (hne : cm ≠ []) :
    (str "Comment=" ++ escapeValue cm) ∈ formatSlotLines i p := by
  unfold formatSlotLines
  apply List.mem_filter.mpr
  refine ⟨?_, ?_⟩
  · apply List.mem_append.mpr
    left
    apply List.mem_append.mpr
    right
    simp only [hcm]
    rw [if_neg hne]
    exact List.mem_singleton.mpr rfl
  · rw [decide_eq_true_eq]
    intro h
    exact absurd (List.append_eq_nil.mp h).1 (by decide)

/-- C5: the line-oriented escaping collapses every CRLF pair and every
LF to a single space and turns `=` into `-`: it equals the
split-on-newlines / join-with-one-space transform with `=`
replacement applied to each piece, and its output contains neither a
line feed nor an equals sign; consequently a plugin comment holding a
newline and an `=` is emitted as the single logical line
`Comment=<escaped>`. -/
theorem claim_C5 :
    (∀ s, escapeValue s = joinWith [32] ((splitNewlines s).map (List.map eqToDash))) ∧
    (∀ s, (10 : Nat) ∉ escapeValue s ∧ (61 : Nat) ∉ escapeValue s) ∧
    (∀ (i : Nat) (p : PluginChainPlugin) (cm : Str), p.comment = some cm → cm ≠ [] →
      (str "Comment=" ++ escapeValue cm) ∈ formatSlotLines i p ∧
      (10 : Nat) ∉ str "Comment=" ++ escapeValue cm ∧
      (61 : Nat) ∉ escapeValue cm) := by
  refine ⟨escapeValue_eq_join, fun s => ⟨noLF_escapeValue s, noEq_escapeValue s⟩, ?_⟩
  intro i p cm hcm hne
  refine ⟨comment_line_mem i p cm hcm hne, ?_, noEq_escapeValue cm⟩
  · intro hmem
    rcases List.mem_append.mp hmem with h | h
    · revert h
      decide
    · exact noLF_escapeValue cm h

/-- C5, witness: a concrete comment holding a newline and an `=`. -/
theorem claim_C5_witness :
    (str "Comment=" ++ escapeValue (str "line one\nGain=+3dB")) ∈
      formatSlotLines 0 exCommentPlugin ∧
    (10 : Nat) ∉ str "Comment=" ++ escapeValue (str "line one\nGain=+3dB") ∧
    (61 : Nat) ∉ escapeValue (str "line one\nGain=+3dB") :=
  claim_C5.2.2 0 exCommentPlugin (str "line one\nGain=+3dB") rfl (by decide)

/-! ## Lemmas: stable sorting -/

theorem insertS_length (le : α → α → Bool) (x : α) (l : List α) :
    (insertS le x l).length = l.length + 1 := by
  induction l with
  | nil => rfl
  | cons y ys ih =>
    unfold insertS
    by_cases h : le y x = true
    · rw [if_pos h]
      simp [ih]
    · rw [if_neg h]
      simp

theorem insertS_perm (le : α → α → Bool) (x : α) (l : List α) :
    List.Perm (insertS le x l) (x :: l) := by
  induction l with
  | nil => exact List.Perm.refl _
  | cons y ys ih =>
    unfold insertS
    by_cases h : le y x = true
    · rw [if_pos h]
      exact (ih.cons y).trans (List.Perm.swap x y ys)
    · rw [if_neg h]

theorem jsSort_perm_aux (le : α → α → Bool) (l : List α) :
    ∀ acc : List α, List.Perm (l.foldl (fun a x => insertS le x a) acc) (acc ++ l) := by
  induction l with
  | nil => intro acc; simp
  | cons x rest ih =>
    intro acc
    have h1 : List.Perm (rest.foldl (fun a x => insertS le x a) (insertS le x acc))
        (insertS le x acc ++ rest) := ih _
    have h2 : List.Perm (insertS le x acc ++ rest) ((x :: acc) ++ rest) :=
      (insertS_perm le x acc).append_right rest
    have h3 : List.Perm ((x :: acc) ++ rest) (acc ++ x :: rest) := by
      rw [List.cons_append]
      exact List.perm_middle.symm
    exact (h1.trans h2).trans h3

theorem jsSort_perm (le : α → α → Bool) (l : List α) : List.Perm (jsSort le l) l :=
  jsSort_perm_aux le l []

theorem jsSort_length (le : α → α → Bool) (l : List α) :
    (jsSort le l).length = l.length :=
  (jsSort_perm le l).length_eq

theorem insertS_pairwise (le : α → α → Bool)
    (htot : ∀ a b, le a b = true ∨ le b a = true)
    (htrans : ∀ a b c, le a b = true → le b c = true → le a c = true)
    (x : α) (l : List α) (h : l.Pairwise (fun a b => le a b = true)) :
    (insertS le x l).Pairwise (fun a b => le a b = true) := by
  induction l with
  | nil => simp [insertS]
  | cons y ys ih =>
    rcases List.pairwise_cons.mp h with ⟨hy, hys⟩
    unfold insertS
    by_cases hle : le y x = true
    · rw [if_pos hle]
      refine List.pairwise_cons.mpr ⟨?_, ih hys⟩
      intro b hb
      rcases List.mem_cons.mp ((insertS_perm le x ys).mem_iff.mp hb) with rfl | hbys
      · exact hle
      · exact hy b hbys
    · rw [if_neg hle]
      have hxy : le x y = true := (htot x y).resolve_right (fun h2 => hle h2)
      refine List.pairwise_cons.mpr ⟨?_, h⟩
      intro b hb
      rcases List.mem_cons.mp hb with rfl | hbys
      · exact hxy
      · exact htrans x y b hxy (hy b hbys)

theorem jsSort_pairwise_aux (le : α → α → Bool)
    (htot : ∀ a b, le a b = true ∨ le b a = true)
    (htrans : ∀ a b c, le a b = true → le b c = true → le a c = true)
    (l : List α) :
    ∀ acc : List α, acc.Pairwise (fun a b => le a b = true) →
      (l.foldl (fun a x => insertS le x a) acc).Pairwise (fun a b => le a b = true) := by
  induction l with
  | nil => intro acc hacc; exact hacc
  | cons x rest ih =>
    intro acc hacc
    exact ih (insertS le x acc) (insertS_pairwise le htot htrans x acc hacc)

theorem jsSort_pairwise (le : α → α → Bool)
    (htot : ∀ a b, le a b = true ∨ le b a = true)
    (htrans : ∀ a b c, le a b = true → le b c = true → le a c = true)
    (l : List α) : (jsSort le l).Pairwise (fun a b => le a b = true) :=
  jsSort_pairwise_aux le htot htrans l [] List.Pairwise.nil

theorem keyedPlugins_eq_map (c : PluginChain) :
    keyedPlugins c = (keyedIdxPlugins c).map dropIdx := by
  unfold keyedPlugins keyedIdxPlugins
  rw [List.map_map]
  rfl

theorem insertS_key_lex (x : (Int × Nat) × PluginChainPlugin)
    (acc : List ((Int × Nat) × PluginChainPlugin))
    (hidx : ∀ y ∈ acc, y.1.2 < x.1.2) :
    insertS keyLe (dropIdx x) (acc.map dropIdx) = (insertS lexLe x acc).map dropIdx := by
  induction acc with
  | nil => rfl
  | cons y ys ih =>
    have hy : y.1.2 < x.1.2 := hidx y (List.mem_cons_self y ys)
    have hagree : keyLe (dropIdx y) (dropIdx x) = lexLe y x := by
      unfold keyLe lexLe dropIdx
      rw [decide_eq_decide]
      omega
    rw [List.map_cons]
    unfold insertS
    rw [hagree]
    by_cases h : lexLe y x = true
    · rw [if_pos h, if_pos h]
      rw [ih (fun z hz => hidx z (List.mem_cons_of_mem y hz))]
      rw [List.map_cons]
    · rw [if_neg h, if_neg h]
      rfl

theorem jsSort_key_lex (l : List ((Int × Nat) × PluginChainPlugin)) :
    ∀ acc : List ((Int × Nat) × PluginChainPlugin),
      (∀ x ∈ l, ∀ y ∈ acc, y.1.2 < x.1.2) →
      l.Pairwise (fun a b => a.1.2 < b.1.2) →
      (l.map dropIdx).foldl (fun a x => insertS keyLe x a) (acc.map dropIdx) =
        (l.foldl (fun a x => insertS lexLe x a) acc).map dropIdx := by
  induction l with
  | nil => intro acc _ _; rfl
  | cons x rest ih =>
    intro acc hacc hpw
    rcases List.pairwise_cons.mp hpw with ⟨hx, hrest⟩
    rw [List.map_cons]
    show (rest.map dropIdx).foldl (fun a x => insertS keyLe x a)
        (insertS keyLe (dropIdx x) (acc.map dropIdx)) = _
    rw [insertS_key_lex x acc (hacc x (List.mem_cons_self x rest))]
    exact ih (insertS lexLe x acc)
      (fun z hz y hy => by
        rcases List.mem_cons.mp ((insertS_perm lexLe x acc).mem_iff.mp hy) with rfl | hya
        · exact hx z hz
        · exact hacc z (List.mem_cons_of_mem x hz) y hya)
      hrest

theorem pairwise_idx_enumFrom (l : List PluginChainPlugin) :
    ∀ n : Nat, (List.enumFrom n l).Pairwise (fun a b => a.1 < b.1) := by
  induction l with
  | nil => intro n; simp
  | cons x xs ih =>
    intro n
    refine List.pairwise_cons.mpr ⟨?_, ih (n + 1)⟩
    intro b hb
    have := List.le_fst_of_mem_enumFrom hb
    omega

theorem pairwise_idx_keyedIdx (c : PluginChain) :
    (keyedIdxPlugins c).Pairwise (fun a b => a.1.2 < b.1.2) := by
  unfold keyedIdxPlugins
  rw [List.pairwise_map]
  exact pairwise_idx_enumFrom c.plugins 0

theorem lexLe_total (a b : (Int × Nat) × PluginChainPlugin) :
    lexLe a b = true ∨ lexLe b a = true := by
  unfold lexLe
  rw [decide_eq_true_eq, decide_eq_true_eq]
  omega

theorem lexLe_trans (a b c : (Int × Nat) × PluginChainPlugin)
    (h1 : lexLe a b = true) (h2 : lexLe b c = true) : lexLe a c = true := by
  unfold lexLe at *
  rw [decide_eq_true_eq] at *
  omega

theorem map_snd_keyedIdx (c : PluginChain) :
    (keyedIdxPlugins c).map Prod.snd = c.plugins := by
  unfold keyedIdxPlugins
  rw [List.map_map]
  have : (Prod.snd ∘ fun ip : Nat × PluginChainPlugin =>
      ((ip.2.slotIndex.getD (Int.ofNat ip.1), ip.1), ip.2)) = Prod.snd := rfl
  rw [this, List.enum_map_snd]

theorem sortChainPlugins_eq_lex (c : PluginChain) :
    sortChainPlugins c = (jsSort lexLe (keyedIdxPlugins c)).map Prod.snd := by
  unfold sortChainPlugins
  rw [keyedPlugins_eq_map]
  unfold jsSort
  have h := jsSort_key_lex (keyedIdxPlugins c) [] (by intro x _ y hy; cases hy)
    (pairwise_idx_keyedIdx c)
  simp only [List.map_nil] at h
  rw [h, List.map_map]
  rfl

/-- C3: `sortChainPlugins` preserves length, permutes the input
plugins, and equals the unique stable sort: sorting the plugins
decorated with (effective key, original index) lexicographically —
ascending by `slotIndex`-or-array-index with the original relative
order preserved on equal keys; in particular a `slotIndex: 1` plugin
precedes a `slotIndex: 5` one regardless of array order. -/
theorem claim_C3 :
    (∀ c : PluginChain, (sortChainPlugins c).length = c.plugins.length) ∧
    (∀ c : PluginChain, List.Perm (sortChainPlugins c) c.plugins) ∧
    (∀ c : PluginChain,
      sortChainPlugins c = (jsSort lexLe (keyedIdxPlugins c)).map Prod.snd) ∧
    (∀ c : PluginChain,
      (jsSort lexLe (keyedIdxPlugins c)).Pairwise (fun a b => lexLe a b = true)) ∧
    (sortChainPlugins exSlotChain).map (fun p => p.name) = [str "Early", str "Late"] := by
  have hperm : ∀ c : PluginChain, List.Perm (sortChainPlugins c) c.plugins := by
    intro c
    rw [sortChainPlugins_eq_lex]
    have h1 := (jsSort_perm lexLe (keyedIdxPlugins c)).map Prod.snd
    rw [map_snd_keyedIdx] at h1
    exact h1
  refine ⟨fun c => (hperm c).length_eq, hperm, sortChainPlugins_eq_lex,
    fun c => jsSort_pairwise lexLe lexLe_total lexLe_trans _, by decide⟩

/-! ## Parameter emission (C1) -/

/-- C1, counterexample: a plugin with one `PluginParameter` and empty
`settings`; the Pro Tools serializer emits no parameter entry at all,
though the claim demands exactly one entry per PluginParameter from
every native serializer. -/
theorem claim_C1_counterexample :
    ptParamEntries exParamPlugin = [] ∧
    (exParamPlugin.parameters.getD []).length = 1 := by
  refine ⟨by decide, by decide⟩

/-- C1 (amended): the FL Studio serializer follows the full pattern —
one `ParamN=label-or-id=value` line per `PluginParameter` when
`parameters` is present and non-empty, else one line per `settings`
pair, else the single placeholder `Param0=Default=0`, so its parameter
block is never empty.  The Pro Tools and Studio One serializers instead
always emit exactly one `<Parameter .../>` element per `settings` pair,
ignore the `parameters` list entirely, and emit an empty parameter
section when `settings` is empty. -/
theorem slotParamLines_some (p : PluginChainPlugin) (ps : List PluginParameter)
    (hp : p.parameters = some ps) :
    slotParamLines p =
      if ps ≠ [] then
        ps.enum.map (fun x => str "Param" ++ natStr x.1 ++ [61] ++
          escapeValue (x.2.label.getD x.2.id) ++ [61] ++ escapeValue x.2.value)
      else formatParameterLines p := by
  unfold slotParamLines
  rw [hp]

theorem slotParamLines_none (p : PluginChainPlugin) (hp : p.parameters = none) :
    slotParamLines p = formatParameterLines p := by
  unfold slotParamLines
  rw [hp]

theorem claim_C1 :
    (∀ (p : PluginChainPlugin) (ps : List PluginParameter),
      p.parameters = some ps → ps ≠ [] →
      slotParamLines p = ps.enum.map (fun x =>
        str "Param" ++ natStr x.1 ++ [61] ++ escapeValue (x.2.label.getD x.2.id) ++ [61] ++
          escapeValue x.2.value)) ∧
    (∀ p : PluginChainPlugin, (p.parameters = none ∨ p.parameters = some []) →
      slotParamLines p = formatParameterLines p) ∧
    (∀ p : PluginChainPlugin, p.settings ≠ [] →
      formatParameterLines p = p.settings.enum.map (fun x =>
        str "Param" ++ natStr x.1 ++ [61] ++ escapeValue x.2.1 ++ [61] ++
          escapeValue x.2.2)) ∧
    (∀ p : PluginChainPlugin, p.settings = [] →
      formatParameterLines p = [str "Param0=Default=0"]) ∧
    (∀ p : PluginChainPlugin, slotParamLines p ≠ []) ∧
    (∀ (p : PluginChainPlugin) (q : Option (List PluginParameter)),
      ptParamEntries { p with parameters := q } = ptParamEntries p ∧
      s1ParamEntries { p with parameters := q } = s1ParamEntries p) ∧
    (∀ p : PluginChainPlugin,
      ptParamEntries p = p.settings.enum.map (fun x => ptParamEntry x.1 x.2) ∧
      s1ParamEntries p = p.settings.enum.map (fun x => ptParamEntry x.1 x.2) ∧
      (p.settings = [] → ptParamEntries p = [] ∧ s1ParamEntries p = [])) := by
  refine ⟨?_, ?_, ?_, ?_, ?_, ?_, ?_⟩
  · intro p ps hp hne
    rw [slotParamLines_some p ps hp, if_pos hne]
  · intro p hp
    rcases hp with hp | hp
    · exact slotParamLines_none p hp
    · rw [slotParamLines_some p [] hp]
      simp
  · intro p hs
    unfold formatParameterLines
    rw [if_neg hs]
  · intro p hs
    unfold formatParameterLines
    rw [if_pos hs]
  · intro p
    have hfp : formatParameterLines p ≠ [] := by
      unfold formatParameterLines
      by_cases hs : p.settings = []
      · rw [if_pos hs]
        simp
      · rw [if_neg hs]
        simp only [ne_eq, List.map_eq_nil_iff]
        intro h
        exact hs (by simpa using congrArg List.length h)
    cases hp : p.parameters with
    | none => rw [slotParamLines_none p hp]; exact hfp
    | some ps =>
      rw [slotParamLines_some p ps hp]
      by_cases hne : ps ≠ []
      · rw [if_pos hne]
        simp only [ne_eq, List.map_eq_nil_iff]
        intro h
        exact hne (by simpa using congrArg List.length h)
      · rw [if_neg hne]
        exact hfp
  · intro p q
    exact ⟨rfl, rfl⟩
  · intro p
    exact ⟨rfl, rfl, fun hs => by
      unfold ptParamEntries s1ParamEntries
      rw [hs]
      exact ⟨rfl, rfl⟩⟩

/-- C1, witness: the FL Studio serializer renders the concrete
parameter list of `exParamPlugin`, and the Pro Tools serializer emits
nothing for it. -/
theorem claim_C1_witness :
    slotParamLines exParamPlugin = [str "Param0=Cutoff=100"] ∧
    ptParamEntries exParamPlugin = [] :=
  ⟨(claim_C1.1 exParamPlugin
      [{ id := str "cutoff", label := some (str "Cutoff"), value := str "100" }]
      rfl (by decide)).trans (by decide),
   ((claim_C1.2.2.2.2.2.2 exParamPlugin).2.2 rfl).1⟩

/-! ## FST layout at the one-plugin chain (C6) -/

set_option maxRecDepth 4096 in
/-- C6: at the spec's one-plugin FL Studio chain the filename is
`.fst`-suffixed and the `Param0=Gain=+3dB` line is present, but the
header array's trailing `""` separator is removed by `filter(Boolean)`,
so the body glues the slot marker onto the slot-count line: the line
`SlotCount=1[Slot0]` appears, no line `SlotCount=1` exists, and
`[Slot0]` does not start its own line — the code contradicts the
spec's `[SlotN]`-block layout. -/
theorem claim_C6 :
    (FlStudioFstSerializer.serialize exFlChain).1.filename = str "fl_studio_chain.fst" ∧
    buildFst exFlChain =
      str "[ToneTerminalFST]\nVersion=1\nCreatedBy=ToneTerminal\nDAW=fl_studio\nSlotCount=1[Slot0]\nName=Tone EQ\nDisplayName=Tone EQ\nType=Equalizer\nState=Active\nParam0=Gain=+3dB\n" ∧
    (str "SlotCount=1[Slot0]") ∈ splitLF (buildFst exFlChain) ∧
    (str "SlotCount=1") ∉ splitLF (buildFst exFlChain) ∧
    (str "[Slot0]") ∉ splitLF (buildFst exFlChain) ∧
    (str "Param0=Gain=+3dB") ∈ splitLF (buildFst exFlChain) := by
  refine ⟨by decide, by decide, by decide, by decide, by decide, by decide⟩

/-! ## Stub zip fallback (C4) -/

theorem settingsJson_roundtrip (s : List (Str × Str)) :
    jsonAsSettings (settingsToJson s) = some s := by
  have h : ∀ t : List (Str × Str),
      settingsOfFields (t.map (fun kv => (kv.1, Json.jstr kv.2))) = some t := by
    intro t
    induction t with
    | nil => rfl
    | cons kv rest ih =>
      rw [List.map_cons]
      unfold settingsOfFields
      rw [ih]
      rfl
  exact h s

theorem decodePlugin_roundtrip (p : PluginChainPlugin) :
    decodePluginNTS (pluginToJson p) = some (p.name, p.type, p.settings) := by
  have hname : jsonField (pluginToJson p) (str "name") = some (Json.jstr p.name) := rfl
  have htype : jsonField (pluginToJson p) (str "type") = some (Json.jstr p.type) := rfl
  have hset : jsonField (pluginToJson p) (str "settings") =
      some (settingsToJson p.settings) := rfl
  have hred : decodePluginNTS (pluginToJson p) =
      Option.bind (jsonAsSettings (settingsToJson p.settings))
        (fun s => some (p.name, p.type, s)) := rfl
  rw [hred, settingsJson_roundtrip]
  rfl

theorem decodeChain_roundtrip (c : PluginChain) :
    decodeChainNTS (chainToJson c) =
      some (c.plugins.map (fun p => (p.name, p.type, p.settings))) := by
  have hf : jsonField (chainToJson c) (str "plugins") =
      some (Json.jarr (c.plugins.map pluginToJson)) := rfl
  have h : ∀ l : List PluginChainPlugin,
      decodePluginList (l.map pluginToJson) =
        some (l.map (fun p => (p.name, p.type, p.settings))) := by
    intro l
    induction l with
    | nil => rfl
    | cons p rest ih =>
      rw [List.map_cons, List.map_cons]
      unfold decodePluginList
      rw [decodePlugin_roundtrip, ih]
  unfold decodeChainNTS
  rw [hf]
  exact h c.plugins

/-- C4: the fallback serializer's filename is the lower-cased,
underscored DAW name (or `tone` when that is empty) plus the fixed
`_chain_stub.zip` suffix, independent of `song` and `summary`; its zip
holds exactly `README.txt`, `chain.json` and `clipboard.txt`; the
`chain.json` entry is the chain document, and decoding it reproduces
every plugin's name, type and settings; and the dispatcher returns
exactly this output when no native serializer matches. -/
theorem claim_C4 :
    (∀ c : PluginChain, (StubZipSerializer.serialize c).1.filename =
      (if stubSafeDaw c.daw = [] then str "tone" else stubSafeDaw c.daw) ++
        str "_chain_stub.zip") ∧
    (∀ (c : PluginChain) (song : Option SongMeta) (sum : Option Str),
      (StubZipSerializer.serialize { c with song := song, summary := sum }).1.filename =
        (StubZipSerializer.serialize c).1.filename) ∧
    (∀ c : PluginChain, zipPaths (StubZipSerializer.serialize c).1.data =
      [str "README.txt", str "chain.json", str "clipboard.txt"]) ∧
    (∀ c : PluginChain, jsonEntry (StubZipSerializer.serialize c).1.data
      (str "chain.json") = some (chainToJson c)) ∧
    (∀ c : PluginChain, decodeChainNTS (chainToJson c) =
      some (c.plugins.map (fun p => (p.name, p.type, p.settings)))) ∧
    (∀ c : PluginChain,
      SERIALIZERS.find? (fun s => s.canHandle (resolveDawId c)) = none →
      (serializePreset c).1 =
        (StubZipSerializer.serialize { c with dawId := some (resolveDawId c) }).1) := by
  refine ⟨fun c => rfl, fun c song sum => rfl, fun c => rfl, fun c => rfl,
    decodeChain_roundtrip, ?_⟩
  intro c h
  unfold serializePreset
  rw [h]

/-- C4, witness: the Bitwig chain has no native serializer; the
dispatcher hands it to the stub serializer. -/
theorem claim_C4_witness :
    (serializePreset exStubChain).1 =
      (StubZipSerializer.serialize
        { exStubChain with dawId := some (resolveDawId exStubChain) }).1 :=
  claim_C4.2.2.2.2.2 exStubChain rfl

/-! ## Dispatcher (C2) and frame (C9) -/

theorem serializers_output_id (s : PresetSerializer) (hs : s ∈ SERIALIZERS)
    (c : PluginChain) :
    (s.serialize c).1.serializerId = s.id ∧ (s.serialize c).1.isNative = true := by
  simp only [SERIALIZERS, List.mem_cons, List.not_mem_nil, or_false] at hs
  rcases hs with rfl | rfl | rfl | rfl | rfl | rfl <;> exact ⟨rfl, rfl⟩

theorem serializers_frame (s : PresetSerializer) (hs : s ∈ SERIALIZERS)
    (c : PluginChain) : (s.serialize c).2 = c := by
  simp only [SERIALIZERS, List.mem_cons, List.not_mem_nil, or_false] at hs
  rcases hs with rfl | rfl | rfl | rfl | rfl | rfl <;> rfl

/-- C2: the dispatch identifier is `chain.dawId` when present, else the
label lookup, else the lower-cased whitespace-to-underscore slug; the
first registered serializer whose `canHandle` accepts it wins, and the
produced preset carries that serializer's id with `isNative: true`,
while an unmatched id falls back to the stub with `isNative: false`. -/
theorem claim_C2 :
    (∀ (c : PluginChain) (d : Str), c.dawId = some d → resolveDawId c = d) ∧
    (∀ (c : PluginChain) (d : Str), c.dawId = none →
      labelToDawId (some c.daw) = some d → resolveDawId c = d) ∧
    (∀ c : PluginChain, c.dawId = none → labelToDawId (some c.daw) = none →
      resolveDawId c = runsTo isWs 95 (lowerStr c.daw)) ∧
    (∀ (c : PluginChain) (s : PresetSerializer),
      SERIALIZERS.find? (fun t => t.canHandle (resolveDawId c)) = some s →
      (serializePreset c).1.isNative = true ∧
      (serializePreset c).1.serializerId = s.id) ∧
    (∀ c : PluginChain,
      SERIALIZERS.find? (fun t => t.canHandle (resolveDawId c)) = none →
      (serializePreset c).1.isNative = false ∧
      (serializePreset c).1.serializerId = StubZipSerializer.id) := by
  refine ⟨?_, ?_, ?_, ?_, ?_⟩
  · intro c d h
    unfold resolveDawId
    rw [h]
    rfl
  · intro c d h1 h2
    unfold resolveDawId
    rw [h1, h2]
    rfl
  · intro c h1 h2
    unfold resolveDawId
    rw [h1, h2]
    rfl
  · intro c s h
    have hmem := List.mem_of_find?_eq_some h
    unfold serializePreset
    rw [h]
    exact ⟨(serializers_output_id s hmem _).2, (serializers_output_id s hmem _).1⟩
  · intro c h
    unfold serializePreset
    rw [h]
    exact ⟨rfl, rfl⟩

/-- C2, witness: a native match (`fl_studio`) and a fallback
(`Bitwig`), both dispatched concretely. -/
theorem claim_C2_witness :
    ((serializePreset exFlChain).1.isNative = true ∧
      (serializePreset exFlChain).1.serializerId = FlStudioFstSerializer.id) ∧
    ((serializePreset exStubChain).1.isNative = false ∧
      (serializePreset exStubChain).1.serializerId = StubZipSerializer.id) :=
  ⟨⟨(claim_C2.2.2.2.1 exFlChain FlStudioFstSerializer rfl).1,
    (claim_C2.2.2.2.1 exFlChain FlStudioFstSerializer rfl).2⟩,
   ⟨(claim_C2.2.2.2.2 exStubChain rfl).1, (claim_C2.2.2.2.2 exStubChain rfl).2⟩⟩

/-- C9: no serialize call mutates the caller's chain: every serializer
(modelled with explicit state passing) returns its chain argument
unchanged, and the dispatcher's caller-visible chain — whose top-level
fields are its own and whose `plugins` array is shared with the copy
handed to the serializer — is identical to the input after the call. -/
theorem claim_C9 :
    (∀ c : PluginChain, (serializePreset c).2 = c) ∧
    (∀ c : PluginChain, (ReaperRfxSerializer.serialize c).2 = c) ∧
    (∀ c : PluginChain, (FlStudioFstSerializer.serialize c).2 = c) ∧
    (∀ c : PluginChain, (AbletonAdgSerializer.serialize c).2 = c) ∧
    (∀ c : PluginChain, (LogicPatchSerializer.serialize c).2 = c) ∧
    (∀ c : PluginChain, (ProToolsPresetSerializer.serialize c).2 = c) ∧
    (∀ c : PluginChain, (StudioOnePresetSerializer.serialize c).2 = c) ∧
    (∀ c : PluginChain, (StubZipSerializer.serialize c).2 = c) := by
  refine ⟨?_, fun c => rfl, fun c => rfl, fun c => rfl, fun c => rfl, fun c => rfl,
    fun c => rfl, fun c => rfl⟩
  intro c
  unfold serializePreset
  cases h : SERIALIZERS.find? (fun t => t.canHandle (resolveDawId c)) with
  | some s =>
    have hframe := serializers_frame s (List.mem_of_find?_eq_some h)
      { c with dawId := some (resolveDawId c) }
    show ({ c with plugins :=
      ((s.serialize { c with dawId := some (resolveDawId c) }).2).plugins }) = c
    rw [hframe]
  | none => rfl

/-! ## DAW label resolution (C10) -/

theorem dropWhile_append_all (p : Nat → Bool) (a b : Str)
    (ha : ∀ c ∈ a, p c = true) : (a ++ b).dropWhile p = b.dropWhile p := by
  induction a with
  | nil => rfl
  | cons x xs ih =>
    rw [List.cons_append, List.dropWhile_cons,
      if_pos (ha x (List.mem_cons_self x xs))]
    exact ih (fun c hc => ha c (List.mem_cons_of_mem x hc))

theorem jsTrim_pad (w1 w2 s : Str)
    (hw1 : ∀ c ∈ w1, isWs c = true) (hw2 : ∀ c ∈ w2, isWs c = true)
    (hs : s ≠ [])
    (hh : ∀ c, s.head? = some c → isWs c = false)
    (hl : ∀ c, s.getLast? = some c → isWs c = false) :
    jsTrim (w1 ++ s ++ w2) = s := by
  unfold jsTrim trimBy
  have h1 : (w1 ++ s ++ w2).dropWhile isWs = s ++ w2 := by
    rw [List.append_assoc, dropWhile_append_all isWs w1 (s ++ w2) hw1]
    cases s with
    | nil => exact absurd rfl hs
    | cons x xs =>
      rw [List.cons_append, List.dropWhile_cons, if_neg (by simp [hh x rfl])]
  rw [h1]
  have h2 : (s ++ w2).reverse.dropWhile isWs = s.reverse := by
    rw [List.reverse_append, dropWhile_append_all isWs w2.reverse s.reverse
      (fun c hc => hw2 c (List.mem_reverse.mp hc))]
    cases hrev : s.reverse with
    | nil => simp
    | cons x xs =>
      rw [List.dropWhile_cons, if_neg ?_]
      have : s.getLast? = some x := by
        rw [← List.head?_reverse, hrev, List.head?_cons]
      simp [hl x this]
  rw [h2, List.reverse_reverse]

theorem daws_table_facts :
    DAWS.all (fun q =>
      decide (q.2 ≠ []) && ! isWs (q.2.headD 0) && ! isWs (q.2.getLastD 0) &&
      (objGet LABEL_TO_ID (lowerStr q.2) == some q.1)) = true := by
  decide

/-- C10: `labelToDawId` returns `null` on absent or empty input, and
tolerates surrounding whitespace and arbitrary letter case: for every
table entry, any case variant of its label padded with whitespace on
either side resolves to that entry's id. -/
theorem claim_C10 :
    labelToDawId none = none ∧
    labelToDawId (some []) = none ∧
    (∀ p ∈ DAWS, ∀ (w1 w2 s : Str),
      (∀ c ∈ w1, isWs c = true) → (∀ c ∈ w2, isWs c = true) →
      lowerStr s = lowerStr p.2 →
      labelToDawId (some (w1 ++ s ++ w2)) = some p.1) := by
  refine ⟨rfl, rfl, ?_⟩
  intro p hp w1 w2 s hw1 hw2 hs
  have hfacts := List.all_eq_true.mp daws_table_facts p hp
  simp only [Bool.and_eq_true, decide_eq_true_eq, Bool.not_eq_true',
    beq_iff_eq] at hfacts
  obtain ⟨⟨⟨hne, hhead⟩, hlast⟩, hlook⟩ := hfacts
  have hlen : s.length = p.2.length := by
    have := congrArg List.length hs
    simpa [lowerStr] using this
  have hsne : s ≠ [] := by
    intro h
    rw [h] at hlen
    exact hne (List.eq_nil_of_length_eq_zero hlen.symm)
  have hshead : ∀ c, s.head? = some c → isWs c = false := by
    intro c hc
    have hmap := congrArg List.head? hs
    rw [lowerStr, lowerStr, List.head?_map, List.head?_map, hc] at hmap
    cases hph : p.2.head? with
    | none =>
      rw [hph] at hmap
      cases hmap
    | some d =>
      rw [hph] at hmap
      simp only [Option.map] at hmap
      rw [Option.some.injEq] at hmap
      have hd : isWs d = false := by
        cases hp2 : p.2 with
        | nil => exact absurd hp2 hne
        | cons e tail =>
          rw [hp2] at hph
          simp only [List.head?_cons, Option.some.injEq] at hph
          subst hph
          simpa [hp2] using hhead
      rw [← isWs_lowerCh c, hmap, isWs_lowerCh d]
      exact hd
  have hslast : ∀ c, s.getLast? = some c → isWs c = false := by
    intro c hc
    have hmap := congrArg List.getLast? hs
    rw [lowerStr, lowerStr, List.getLast?_map, List.getLast?_map, hc] at hmap
    cases hph : p.2.getLast? with
    | none =>
      rw [hph] at hmap
      cases hmap
    | some d =>
      rw [hph] at hmap
      simp only [Option.map] at hmap
      rw [Option.some.injEq] at hmap
      have hd : isWs d = false := by
        have : p.2.getLastD 0 = d := by
          rw [List.getLastD_eq_getLast?, hph]
          rfl
        rw [← this]
        exact hlast
      rw [← isWs_lowerCh c, hmap, isWs_lowerCh d]
      exact hd
  have hpad : (w1 ++ s ++ w2) ≠ [] := by
    intro h
    rcases List.append_eq_nil.mp h with ⟨h1, _⟩
    rcases List.append_eq_nil.mp h1 with ⟨_, h2⟩
    exact hsne h2
  show (if (w1 ++ s ++ w2) = [] then none
    else objGet LABEL_TO_ID (lowerStr (jsTrim (w1 ++ s ++ w2)))) = some p.1
  rw [if_neg hpad, jsTrim_pad w1 w2 s hw1 hw2 hsne hshead hslast, hs]
  exact hlook

/-- C10, witness: `" fl STUDIO "` resolves to `fl_studio`. -/
theorem claim_C10_witness :
    labelToDawId (some ([32] ++ str "fl STUDIO" ++ [32])) = some (str "fl_studio") :=
  claim_C10.2.2 (str "fl_studio", str "FL Studio") (by decide) [32] [32]
    (str "fl STUDIO") (by decide) (by decide) (by decide)

end ToneTerminal
